import Mathlib

/-!
Verification of the SwampSat II beacon parser (`lib/swampsat2.py`).

The Python module is shallowly embedded below.  Byte tokens are lists of
characters, Python `int`s are `ℤ`/`ℕ`, Python `float` arithmetic on the
decoded telemetry is modelled exactly over `ℚ` (every float produced by the
parser is obtained from integers by `+ - * /` and powers of two, so the
rational value is the specified value of each field), and Python exceptions
are modelled with `Except PyErr`.  The destructive byte cursor
(`_parsebinary` popping from the front of the `hexarray` list) is modelled
by the state monad `M := StateT (List Tok) (Except PyErr)`.
-/

deriving instance DecidableEq for Except

/-- Python exceptions raised by the module. -/
inductive PyErr where
  | typeError
  | valueError
  | indexError
  deriving DecidableEq, Repr

/-- A byte token of the cleaned frame: the 2-character chunks produced by
`_cleaninput` (the final chunk can have a single character). -/
abbrev Tok := List Char

/-- Values stored in the parser's `OrderedDict`: numbers (ints and floats,
modelled exactly as rationals) and strings. -/
inductive PVal where
  | num (q : ℚ)
  | str (s : String)
  deriving DecidableEq, Repr

/-- The `OrderedDict` of decoded fields: an ordered association list.  All
keys inserted by the Python code are pairwise distinct, so `update` on
fresh keys is concatenation. -/
abbrev Record := List (String × PVal)

/-- Results of `_parsebinary`: an int, a float, a list of bit flags, or
Python `None` (the implicit result when no `dtype` branch matches). -/
inductive PB where
  | int (z : ℤ)
  | flt (q : ℚ)
  | bits (l : List ℕ)
  | none
  deriving DecidableEq, Repr

/-- ASCII lowercasing, as `str.lower()` does on the ASCII inputs that occur
here. -/
def asciiLower (c : Char) : Char :=
  if 'A' ≤ c ∧ c ≤ 'Z' then Char.ofNat (c.toNat + 32) else c

/-- Python whitespace stripped by `str.strip()` (ASCII part). -/
def isPySpace (c : Char) : Bool :=
  c = ' ' ∨ c = '\t' ∨ c = '\n' ∨ c = '\r' ∨ c = '\x0b' ∨ c = '\x0c'

/-- Membership in `string.hexdigits.lower()`, i.e. in `'0123456789abcdef'`
(the duplicated lowercase letters of that Python constant do not change
membership). -/
def isLHex (c : Char) : Bool := "0123456789abcdef".toList.contains c

/-- The value of one lowercase hexadecimal digit, by its ASCII code
(`'0'`–`'9'` are 48–57, `'a'`–`'f'` are 97–102; `0` on other characters —
all callers check `isLHex` first). -/
def hexDigitVal (c : Char) : ℕ :=
  if 48 ≤ c.toNat ∧ c.toNat ≤ 57 then c.toNat - 48
  else if 97 ≤ c.toNat ∧ c.toNat ≤ 102 then c.toNat - 87 else 0

/-- Value of a big-endian string of hexadecimal digits. -/
def hexVal (l : List Char) : ℕ := l.foldl (fun a c => 16 * a + hexDigitVal c) 0

/-- `int(s, 16)`, for the strings this module ever builds: lowercase
hexadecimal text possibly polluted by surviving delimiter characters.
A non-empty all-hex string parses to its value; anything else raises
`ValueError` (the further forms CPython accepts — signs, whitespace,
underscores, uppercase digits and a `0x` prefix — cannot arise from the
lowercased cleaned input except through pathological multi-character
delimiters, and are not modelled). -/
def pyIntHex (l : List Char) : Except PyErr ℕ :=
  if l ≠ [] ∧ l.all isLHex then .ok (hexVal l) else .error .valueError

/-- Fuel-driven core of `bin(n)[2:]` (structural recursion so that the
kernel can evaluate it; the fuel is irrelevant whenever it is `≥ n`,
see `binCoreAux_fuel`). -/
def binCoreAux : ℕ → ℕ → List Char
  | _, 0 => []
  | 0, _ + 1 => []
  | fuel + 1, n + 1 =>
    binCoreAux fuel ((n + 1) / 2) ++ [if (n + 1) % 2 = 1 then '1' else '0']

/-- The digit characters of `bin(n)` for `n ≥ 1` (most significant first):
`binCore n = bin(n)[2:]`, and `binCore 0 = []`. -/
def binCore (n : ℕ) : List Char := binCoreAux n n

/-- `bin(n)[2:]` for a natural number (`bin(0)[2:] = "0"`). -/
def binDigits (n : ℕ) : List Char := if n = 0 then ['0'] else binCore n

/-- `bin(z)[2:]` for a Python int: for negative `z` the sliced text starts
with the `b` of the `-0b` prefix. -/
def pyBin (z : ℤ) : List Char :=
  if z < 0 then 'b' :: binDigits (-z).toNat else binDigits z.toNat

/-- Left-pad a digit string with `'0'` to width `w` (`str.zfill` on sign-free
digit strings, and the `'0' * n + s` pattern with `n` clamped at `0` exactly
as Python's `'0' * negative = ''`). -/
def padLeft (w : ℕ) (l : List Char) : List Char :=
  List.replicate (w - l.length) '0' ++ l

/-- The bit value of a binary digit character (`int('1') = 1`, `int('0') = 0`). -/
def charBit (c : Char) : ℕ := if c = '1' then 1 else 0

/-- Value of a big-endian string of binary digits. -/
def bin2 (l : List Char) : ℕ := l.foldl (fun a c => 2 * a + charBit c) 0

/-- `int(s, 2)` for the slices built by `getkbits8`: strings over
`{'0','1','b'}`.  CPython accepts an optional `0b` prefix followed by a
non-empty digit string, and raises `ValueError` otherwise (in particular on
the empty string and on any string still containing `b`). -/
def pyIntBin (s : List Char) : Except PyErr ℕ :=
  let d := if s.take 2 = ['0', 'b'] then s.drop 2 else s
  if d ≠ [] ∧ d.all (fun c => c = '0' ∨ c = '1') then .ok (bin2 d)
  else .error .valueError

/-- Inputs of `hextofloat`/`hextodouble`: a Python string, or any non-string
value (the code only checks `isinstance(h, str)`). -/
inductive PyIn where
  | str (s : String)
  | nonstr

/-- The digit text `h[2:]` after `if not h.startswith('0x'): h = '0x' + h`:
the input with an optional leading `0x` removed. -/
def pyHexDigits (h : List Char) : List Char :=
  if h.take 2 = ['0', 'x'] then h.drop 2 else h

/-- `ParseDownlink.hextofloat` on a string, with the default `swap=False`
(no call site passes `swap=True`), working over the character list. -/
def hextofloatL (h : List Char) : Except PyErr ℚ :=
  let digits := pyHexDigits h
  if (digits.all isLHex) = false then .error .valueError
  else if digits = [] then .error .valueError  -- int('', 16) raises
  else
    let i := hexVal digits
    let b := padLeft 32 (binDigits i)
    let sign : ℚ := if b.getD 0 ' ' = '0' then 1 else -1
    let exponent := bin2 ((b.drop 1).take 8)
    let mantissa := b.drop 9
    let mval : ℚ := (List.range mantissa.length).foldl
      (fun m j => if mantissa.getD j ' ' = '1' then m + (2 : ℚ) ^ (-(j + 1 : ℤ)) else m) 1
    .ok (sign * (2 : ℚ) ^ ((exponent : ℤ) - 127) * mval)

/-- `ParseDownlink.hextodouble` on a string, default `swap=False`. -/
def hextodoubleL (h : List Char) : Except PyErr ℚ :=
  let digits := pyHexDigits h
  if (digits.all isLHex) = false then .error .valueError
  else if digits = [] then .error .valueError
  else
    let i := hexVal digits
    let b := padLeft 64 (binDigits i)
    let sign : ℚ := if b.getD 0 ' ' = '0' then 1 else -1
    let exponent := bin2 ((b.drop 1).take 11)
    let mantissa := b.drop 12
    let mval : ℚ := (List.range mantissa.length).foldl
      (fun m j => if mantissa.getD j ' ' = '1' then m + (2 : ℚ) ^ (-(j + 1 : ℤ)) else m) 1
    .ok (sign * (2 : ℚ) ^ ((exponent : ℤ) - 1023) * mval)

/-- `ParseDownlink.hextofloat`: `TypeError` on non-strings, else the string
path. -/
def hextofloat : PyIn → Except PyErr ℚ
  | .nonstr => .error .typeError
  | .str s => hextofloatL s.toList

/-- `ParseDownlink.hextodouble`: `TypeError` on non-strings, else the string
path. -/
def hextodouble : PyIn → Except PyErr ℚ
  | .nonstr => .error .typeError
  | .str s => hextodoubleL s.toList

section RatKernelEval

attribute [local semireducible] Rat.mul Rat.add Rat.sub Rat.inv Rat.ofScientific

example : hextofloat (.str "3f800000") = .ok 1 := by decide
example : hextofloat (.str "40490fdb") = .ok (13176795 / 4194304) := by decide
set_option maxRecDepth 4000 in
example : hextofloat (.str "00000000") = .ok ((2 : ℚ) ^ (-127 : ℤ)) := by decide
example : hextofloat (.str "zz") = .error .valueError := by decide
example : hextofloat (.str "") = .error .valueError := by decide
example : hextodouble (.str "3ff0000000000000") = .ok 1 := by decide

end RatKernelEval

/-! ### Binary-digit facts used to settle the float-reconstruction claims -/

/-- The digit character of one bit. -/
def bitChar (b : Bool) : Char := if b then '1' else '0'

theorem binCoreAux_fuel : ∀ m f, m ≤ f → binCoreAux f m = binCore m := by
  intro m
  induction m using Nat.strong_induction_on with
  | _ m ih =>
    intro f hf
    match m, f with
    | 0, f => cases f <;> rfl
    | m + 1, f + 1 =>
      show binCoreAux f ((m + 1) / 2) ++ _ = binCoreAux (m + 1) (m + 1)
      show _ = binCoreAux m ((m + 1) / 2) ++ _
      rw [ih ((m + 1) / 2) (by omega) f (by omega),
          ih ((m + 1) / 2) (by omega) m (by omega)]

theorem binCore_succ (n : ℕ) :
    binCore (n + 1) =
      binCore ((n + 1) / 2) ++ [if (n + 1) % 2 = 1 then '1' else '0'] := by
  show binCoreAux n ((n + 1) / 2) ++ _ = _
  rw [binCoreAux_fuel ((n + 1) / 2) n (by omega)]

theorem binCore_length_ge : ∀ v k, 2 ^ k ≤ v → k + 1 ≤ (binCore v).length := by
  intro v
  induction v using Nat.strong_induction_on with
  | _ v ih =>
    intro k hk
    have hv : 1 ≤ v := le_trans (Nat.one_le_two_pow) hk
    obtain ⟨n, rfl⟩ : ∃ n, v = n + 1 := ⟨v - 1, by omega⟩
    rw [binCore_succ]
    match k with
    | 0 => simp
    | k + 1 =>
      have h2 : 2 ^ k ≤ (n + 1) / 2 := by
        rw [Nat.le_div_iff_mul_le (by omega)]
        calc 2 ^ k * 2 = 2 ^ (k + 1) := by ring
        _ ≤ n + 1 := hk
      have := ih ((n + 1) / 2) (by omega) k h2
      simp only [List.length_append, List.length_cons, List.length_nil]
      omega

/-- `bin(v)[2:]` zero-filled to `k` places lists the bits of `v < 2^k`, most
significant first. -/
theorem padLeft_binDigits :
    ∀ k, 1 ≤ k → ∀ v, v < 2 ^ k →
      padLeft k (binDigits v) =
        ((List.range k).reverse).map (fun i => bitChar (v.testBit i)) := by
  intro k hk
  induction k, hk using Nat.le_induction with
  | base =>
    intro v hv
    interval_cases v <;> decide
  | succ k hk ih =>
    intro v hv
    rcases Nat.lt_or_ge v (2 ^ k) with hlt | hge
    · have IH := ih v hlt
      have hlen : (binDigits v).length ≤ k := by
        have := congrArg List.length IH
        simp only [padLeft, List.length_append, List.length_replicate,
          List.length_map, List.length_reverse, List.length_range] at this
        omega
      have lhs : padLeft (k + 1) (binDigits v) = '0' :: padLeft k (binDigits v) := by
        simp only [padLeft]
        rw [show k + 1 - (binDigits v).length = (k - (binDigits v).length) + 1 by omega,
          List.replicate_succ]
        rfl
      rw [lhs, IH, List.range_succ, List.reverse_append, List.map_append]
      have : v.testBit k = false := Nat.testBit_lt_two_pow hlt
      simp [bitChar, this]
    · -- the top bit of `v` is set: `bin(v)` already has `k+1` digits
      have hv1 : 1 ≤ v := le_trans Nat.one_le_two_pow hge
      have hbd : binDigits v = binCore v := by
        unfold binDigits
        simp [show v ≠ 0 by omega]
      have hlen : k + 1 ≤ (binCore v).length := binCore_length_ge v k hge
      have hpad : padLeft (k + 1) (binDigits v) = binCore v := by
        simp [padLeft, hbd, show k + 1 - (binCore v).length = 0 by omega]
      obtain ⟨n, rfl⟩ : ∃ n, v = n + 1 := ⟨v - 1, by omega⟩
      have hdiv2 : (n + 1) / 2 < 2 ^ k := by
        have h2 : (2:ℕ) ^ (k + 1) = 2 ^ k * 2 := by ring
        omega
      have hge2 : 2 ^ (k - 1) ≤ (n + 1) / 2 := by
        rw [Nat.le_div_iff_mul_le (by omega)]
        calc 2 ^ (k - 1) * 2 = 2 ^ (k - 1 + 1) := by ring
        _ = 2 ^ k := by congr 1; omega
        _ ≤ n + 1 := hge
      have hlen2 : k ≤ (binCore ((n + 1) / 2)).length := by
        have := binCore_length_ge ((n + 1) / 2) (k - 1) hge2
        omega
      have hbd2 : binDigits ((n + 1) / 2) = binCore ((n + 1) / 2) := by
        unfold binDigits
        have : (n + 1) / 2 ≠ 0 := by
          intro h
          rw [h] at hge2
          have : (1:ℕ) ≤ 2 ^ (k - 1) := Nat.one_le_two_pow
          omega
        simp [this]
      have IH := ih ((n + 1) / 2) hdiv2
      rw [hbd2] at IH
      have hcore : binCore ((n + 1) / 2) =
          ((List.range k).reverse).map (fun i => bitChar (((n + 1) / 2).testBit i)) := by
        rw [← IH]
        simp [padLeft, show k - (binCore ((n + 1) / 2)).length = 0 by omega]
      rw [hpad, binCore_succ, hcore, List.range_succ_eq_map, List.reverse_cons,
        List.map_append, List.map_reverse, List.map_reverse, List.map_map]
      congr 1
      · apply congrArg List.reverse
        apply List.map_congr_left
        intro i _
        show bitChar (((n + 1) / 2).testBit i) = bitChar ((n + 1).testBit (i + 1))
        rw [Nat.testBit_add_one]
      · show _ = [bitChar ((n + 1).testBit 0)]
        rw [Nat.testBit_zero]
        by_cases h : (n + 1) % 2 = 1 <;> simp [h, bitChar]

theorem bin2_aux (l : List Char) :
    ∀ a : ℕ, List.foldl (fun a c => 2 * a + charBit c) a l = a * 2 ^ l.length + bin2 l := by
  induction l with
  | nil => intro a; simp [bin2]
  | cons c t ih =>
    intro a
    show List.foldl _ (2 * a + charBit c) t = _
    rw [ih (2 * a + charBit c)]
    have : bin2 (c :: t) = charBit c * 2 ^ t.length + bin2 t := by
      show List.foldl _ (2 * 0 + charBit c) t = _
      rw [ih (2 * 0 + charBit c)]
      ring
    rw [this]
    simp [List.length_cons]
    ring

theorem bin2_cons (c : Char) (l : List Char) :
    bin2 (c :: l) = charBit c * 2 ^ l.length + bin2 l := by
  show List.foldl _ (2 * 0 + charBit c) l = _
  rw [bin2_aux l (2 * 0 + charBit c)]
  ring

/-- Reading a most-significant-first window of the bits of `v` as a binary
numeral extracts the corresponding bit field. -/
theorem bin2_extract (v : ℕ) :
    ∀ cnt lo, bin2 (((List.range' lo cnt).reverse).map (fun i => bitChar (v.testBit i))) =
      v / 2 ^ lo % 2 ^ cnt := by
  intro cnt
  induction cnt with
  | zero => intro lo; simp [bin2, Nat.mod_one]
  | succ cnt ih =>
    intro lo
    rw [List.range'_concat, List.reverse_append, List.map_append]
    show bin2 (bitChar (v.testBit (lo + 1 * cnt)) :: _) = _
    rw [bin2_cons]
    simp only [List.map_nil, List.append_eq, List.nil_append, one_mul, List.length_map,
      List.length_reverse, List.length_range']
    rw [ih lo]
    have hbit : charBit (bitChar (v.testBit (lo + cnt))) = v / 2 ^ (lo + cnt) % 2 := by
      rw [Nat.testBit_to_div_mod]
      by_cases h : v / 2 ^ (lo + cnt) % 2 = 1
      · simp [h, charBit, bitChar]
      · have h0 : v / 2 ^ (lo + cnt) % 2 = 0 := by omega
        simp [h, h0, charBit, bitChar]
    rw [hbit]
    have : v / 2 ^ lo % 2 ^ (cnt + 1) = v / 2 ^ lo % 2 ^ cnt + 2 ^ cnt * (v / 2 ^ lo / 2 ^ cnt % 2) :=
      Nat.mod_pow_succ
    rw [Nat.div_div_eq_div_mul, ← Nat.pow_add] at this
    rw [this]
    ring

theorem revRangeMap_split {α : Type} (f : ℕ → α) (n m : ℕ) (h : m ≤ n) :
    ((List.range n).reverse).map f =
      ((List.range' (n - m) m).reverse).map f ++ ((List.range (n - m)).reverse).map f := by
  have hsplit : List.range (n - m) ++ List.range' (n - m) m = List.range n := by
    rw [List.range_eq_range' (n - m), List.range_eq_range' n]
    have h2 := List.range'_append_1 0 (n - m) m
    simpa [show m + (n - m) = n by omega] using h2
  rw [← hsplit, List.reverse_append, List.map_append]

theorem revRangeMap_take {α : Type} (f : ℕ → α) (n m : ℕ) (h : m ≤ n) :
    (((List.range n).reverse).map f).take m = ((List.range' (n - m) m).reverse).map f := by
  rw [revRangeMap_split f n m h]
  exact List.take_left' (by simp)

theorem revRangeMap_drop {α : Type} (f : ℕ → α) (n m : ℕ) (h : m ≤ n) :
    (((List.range n).reverse).map f).drop m = ((List.range (n - m)).reverse).map f := by
  rw [revRangeMap_split f n m h]
  exact List.drop_left' (by simp)

theorem revRangeMap_getD {α : Type} (f : ℕ → α) (n j : ℕ) (hj : j < n) (d : α) :
    (((List.range n).reverse).map f).getD j d = f (n - 1 - j) := by
  rw [List.getD_eq_getElem?_getD, List.getElem?_eq_getElem (by simpa using hj)]
  simp [List.getElem_reverse]

theorem foldl_range_if_sum (g : ℕ → ℚ) (p : ℕ → Prop) [DecidablePred p] :
    ∀ (n : ℕ) (init : ℚ),
      (List.range n).foldl (fun m j => if p j then m + g j else m) init
        = init + ∑ j ∈ Finset.range n, if p j then g j else 0 := by
  intro n
  induction n with
  | zero => intro init; simp
  | succ n ih =>
    intro init
    rw [List.range_succ, List.foldl_append, ih, Finset.sum_range_succ]
    by_cases h : p n <;> simp [h] <;> ring

theorem hexDigitVal_lt (c : Char) : hexDigitVal c < 16 := by
  unfold hexDigitVal
  split_ifs <;> omega

theorem hexVal_aux (l : List Char) :
    ∀ a : ℕ, l.foldl (fun a c => 16 * a + hexDigitVal c) a < (a + 1) * 16 ^ l.length := by
  induction l with
  | nil => intro a; simp
  | cons c t ih =>
    intro a
    show List.foldl _ (16 * a + hexDigitVal c) t < _
    calc List.foldl (fun a c => 16 * a + hexDigitVal c) (16 * a + hexDigitVal c) t
        < (16 * a + hexDigitVal c + 1) * 16 ^ t.length := ih _
      _ ≤ ((a + 1) * 16) * 16 ^ t.length := by
          apply Nat.mul_le_mul_right
          have := hexDigitVal_lt c
          omega
      _ = (a + 1) * 16 ^ (c :: t).length := by
          simp [List.length_cons]
          ring

theorem hexVal_lt_pow (l : List Char) : hexVal l < 16 ^ l.length := by
  have h := hexVal_aux l 0
  simpa [hexVal] using h

/-- The specified single-precision value of the 32-bit big-endian word `v`:
sign bit 31, exponent field bits 30–23 with bias 127, and the 23 mantissa
bits read as `1 + Σ bit_i·2^(-(i+1))` (bit `i` of the mantissa is bit
`22 - i` of `v`), with no special case for exponent 0 or 255. -/
def singleFormula (v : ℕ) : ℚ :=
  (if v.testBit 31 then -1 else 1) * (2 : ℚ) ^ ((v / 2 ^ 23 % 2 ^ 8 : ℕ) - 127 : ℤ) *
    (1 + ∑ i ∈ Finset.range 23, if v.testBit (22 - i) then (2 : ℚ) ^ (-(i + 1 : ℤ)) else 0)

theorem hextofloatL_eq_formula (h : List Char) (hlen : h.length = 8)
    (hhex : ∀ c ∈ h, isLHex c = true) :
    hextofloatL h = .ok (singleFormula (hexVal h)) := by
  have hx : h.take 2 ≠ ['0', 'x'] := by
    intro he
    have hm : 'x' ∈ h := List.take_subset 2 h (by rw [he]; simp)
    exact absurd (hhex 'x' hm) (by decide)
  have hall : h.all isLHex = true := List.all_eq_true.mpr hhex
  have hne : h ≠ [] := by
    intro he
    rw [he] at hlen
    simp at hlen
  have hv : hexVal h < 2 ^ 32 := by
    have hp := hexVal_lt_pow h
    rw [hlen] at hp
    calc hexVal h < 16 ^ 8 := hp
      _ = 2 ^ 32 := by norm_num
  have hb : padLeft 32 (binDigits (hexVal h)) =
      ((List.range 32).reverse).map (fun i => bitChar ((hexVal h).testBit i)) :=
    padLeft_binDigits 32 (by norm_num) (hexVal h) hv
  have hd : pyHexDigits h = h := if_neg hx
  simp only [hextofloatL, hd, hall, Bool.true_eq_false, if_false, if_neg hne, hb]
  rw [revRangeMap_getD _ 32 0 (by norm_num),
    revRangeMap_drop _ 32 1 (by norm_num), revRangeMap_take _ 31 8 (by norm_num),
    revRangeMap_drop _ 32 9 (by norm_num)]
  rw [bin2_extract (hexVal h) 8 23]
  simp only [List.length_map, List.length_reverse, List.length_range]
  rw [foldl_range_if_sum (fun j => (2:ℚ) ^ (-(j + 1 : ℤ)))
    (fun j => (((List.range 23).reverse).map (fun i => bitChar ((hexVal h).testBit i))).getD j ' ' = '1') 23 1]
  unfold singleFormula
  congr 1
  have hsign : bitChar ((hexVal h).testBit (32 - 1 - 0)) = '0' ↔ ¬ (hexVal h).testBit 31 := by
    cases hbit : (hexVal h).testBit 31 <;> simp [bitChar, show (32:ℕ) - 1 - 0 = 31 by norm_num, hbit]
  congr 1
  · by_cases hs : (hexVal h).testBit 31
    · rw [if_neg (by simpa [hsign] using hs), if_pos hs]
    · rw [if_pos (by simpa [hsign] using hs), if_neg hs]
  · congr 1
    apply Finset.sum_congr rfl
    intro j hj
    have hj23 : j < 23 := Finset.mem_range.mp hj
    rw [revRangeMap_getD _ 23 j hj23]
    cases hbit : (hexVal h).testBit (22 - j) <;>
      simp [bitChar, show (23:ℕ) - 1 - j = 22 - j by omega, hbit]

theorem singleFormula_pi_bound : |(13176795 / 4194304 : ℝ) - Real.pi| < 1 / 2 ^ 23 := by
  have h1 := Real.pi_gt_d20
  have h2 := Real.pi_lt_d20
  rw [abs_sub_lt_iff]
  constructor <;> norm_num at h1 h2 ⊢ <;> linarith

section RatKernelEvalC1

attribute [local semireducible] Rat.mul Rat.add Rat.sub Rat.inv Rat.ofScientific

/-- **C1.** For every 8-hex-digit lowercase string `h`, `hextofloat h` returns
`sign · 2^(exponent−127) · (1 + Σ bit_i·2^(−(i+1)))` with the sign bit, 8-bit
exponent field and 23 mantissa bits taken from the 32-bit big-endian value of
`h` (`singleFormula`); in particular `hextofloat "3f800000" = 1.0` and
`hextofloat "40490fdb"` equals π to single precision (~3.14159265); the same
formula applies unchanged for exponent fields 0 and 255, so
`hextofloat "00000000" = 2^(−127)`, not `0.0`. -/
theorem C1_hextofloat_single :
    (∀ h : String, h.length = 8 → (∀ c ∈ h.toList, isLHex c = true) →
        hextofloat (.str h) = .ok (singleFormula (hexVal h.toList)))
      ∧ hextofloat (.str "3f800000") = .ok 1
      ∧ hextofloat (.str "40490fdb") = .ok (13176795 / 4194304)
      ∧ |(13176795 / 4194304 : ℝ) - Real.pi| < 1 / 2 ^ 23
      ∧ hextofloat (.str "00000000") = .ok ((2 : ℚ) ^ (-127 : ℤ)) := by
  refine ⟨?_, by decide, by decide, singleFormula_pi_bound, ?_⟩
  · intro h hlen hhex
    exact hextofloatL_eq_formula h.toList hlen hhex
  · set_option maxRecDepth 4000 in decide

/-- Witness for C1: the general formula applied at `"41200000"`, whose
32-bit pattern denotes `10.0`. -/
theorem C1_hextofloat_single_witness :
    hextofloat (.str "41200000") = .ok (singleFormula (hexVal "41200000".toList))
      ∧ singleFormula (hexVal "41200000".toList) = 10 :=
  ⟨C1_hextofloat_single.1 "41200000" (by decide) (by decide), by decide⟩

end RatKernelEvalC1

theorem hextofloatL_good (h : List Char) (ha : (pyHexDigits h).all isLHex = true)
    (hne : pyHexDigits h ≠ []) : ∃ q, hextofloatL h = .ok q := by
  cases hres : hextofloatL h with
  | ok q => exact ⟨q, rfl⟩
  | error e =>
    simp only [hextofloatL, ha, Bool.true_eq_false, if_false, if_neg hne] at hres
    exact Except.noConfusion hres

theorem hextodoubleL_good (h : List Char) (ha : (pyHexDigits h).all isLHex = true)
    (hne : pyHexDigits h ≠ []) : ∃ q, hextodoubleL h = .ok q := by
  cases hres : hextodoubleL h with
  | ok q => exact ⟨q, rfl⟩
  | error e =>
    simp only [hextodoubleL, ha, Bool.true_eq_false, if_false, if_neg hne] at hres
    exact Except.noConfusion hres

theorem hextofloatL_error_iff (h : List Char) :
    hextofloatL h = .error .valueError ↔
      ((pyHexDigits h).all isLHex = false ∨ pyHexDigits h = []) := by
  constructor
  · intro hres
    by_contra hcon
    push_neg at hcon
    have ha : (pyHexDigits h).all isLHex = true := by
      cases hx : (pyHexDigits h).all isLHex
      · exact absurd hx hcon.1
      · rfl
    obtain ⟨q, hq⟩ := hextofloatL_good h ha hcon.2
    rw [hq] at hres
    exact Except.noConfusion hres
  · intro hres
    rcases hres with h1 | h1
    · simp [hextofloatL, h1]
    · simp [hextofloatL, h1]

theorem hextodoubleL_error_iff (h : List Char) :
    hextodoubleL h = .error .valueError ↔
      ((pyHexDigits h).all isLHex = false ∨ pyHexDigits h = []) := by
  constructor
  · intro hres
    by_contra hcon
    push_neg at hcon
    have ha : (pyHexDigits h).all isLHex = true := by
      cases hx : (pyHexDigits h).all isLHex
      · exact absurd hx hcon.1
      · rfl
    obtain ⟨q, hq⟩ := hextodoubleL_good h ha hcon.2
    rw [hq] at hres
    exact Except.noConfusion hres
  · intro hres
    rcases hres with h1 | h1
    · simp [hextodoubleL, h1]
    · simp [hextodoubleL, h1]

theorem badDigits_iff (h : List Char) :
    ((pyHexDigits h).all isLHex = false ∨ pyHexDigits h = []) ↔
      ¬ (pyHexDigits h ≠ [] ∧ ∀ c ∈ pyHexDigits h, isLHex c = true) := by
  rw [not_and_or, ne_eq, not_not, or_comm]
  apply or_congr_right
  rw [← List.all_eq_true]
  simp

/-- **C7 (amended).** `hextofloat` and `hextodouble` raise `TypeError` on every
non-string input; on a string they raise `ValueError` if and only if the text
after removing an optional `0x` prefix contains a character outside the
accepted lowercase-hex alphabet **or is empty after that removal** (the empty
case comes from `int('', 16)`); a well-formed hex string always yields a
value, so malformed input is propagated as an exception, never defaulted. -/
theorem C7_hextofloat_error_classification :
    hextofloat .nonstr = .error .typeError
    ∧ hextodouble .nonstr = .error .typeError
    ∧ ∀ s : String,
        (hextofloat (.str s) = .error .valueError ↔
          ¬ (pyHexDigits s.toList ≠ [] ∧ ∀ c ∈ pyHexDigits s.toList, isLHex c = true))
        ∧ (hextodouble (.str s) = .error .valueError ↔
          ¬ (pyHexDigits s.toList ≠ [] ∧ ∀ c ∈ pyHexDigits s.toList, isLHex c = true))
        ∧ ((pyHexDigits s.toList ≠ [] ∧ ∀ c ∈ pyHexDigits s.toList, isLHex c = true) →
            (∃ q, hextofloat (.str s) = .ok q) ∧ ∃ q, hextodouble (.str s) = .ok q) := by
  refine ⟨rfl, rfl, ?_⟩
  intro s
  refine ⟨?_, ?_, ?_⟩
  · rw [← badDigits_iff]
    exact hextofloatL_error_iff s.toList
  · rw [← badDigits_iff]
    exact hextodoubleL_error_iff s.toList
  · intro hgood
    have ha : (pyHexDigits s.toList).all isLHex = true := List.all_eq_true.mpr hgood.2
    exact ⟨hextofloatL_good s.toList ha hgood.1, hextodoubleL_good s.toList ha hgood.1⟩

/-- Counterexample to C7 as stated: the empty string has no character outside
the accepted hex alphabet, yet `hextofloat` raises `ValueError` (from
`int('', 16)`). -/
theorem C7_hextofloat_error_counterexample :
    hextofloat (.str "") = .error .valueError ∧ "".toList.all isLHex = true :=
  ⟨by decide, by decide⟩

/-- Witness for C7: the classification applied at the concrete strings
`"zz"` (rejected) and `"ff"` (accepted). -/
theorem C7_hextofloat_error_witness :
    hextofloat (.str "zz") = .error .valueError
      ∧ ∃ q, hextofloat (.str "ff") = .ok q :=
  ⟨((C7_hextofloat_error_classification.2.2 "zz").1).mpr (by decide),
   (((C7_hextofloat_error_classification.2.2 "ff").2.2) (by decide)).1⟩

/-! ### `_cleaninput` / `_validatehex` and the RawFrame tokens (C8) -/

/-- Python `str.strip()`: whitespace removed from both ends. -/
def pyStrip (l : List Char) : List Char :=
  ((l.dropWhile isPySpace).reverse.dropWhile isPySpace).reverse

/-- Fuel-driven core of `str.replace(pat, '')`: remove the non-overlapping
occurrences of `pat` scanning left to right; `replace('', '')` is the
identity, exactly as in Python.  Structural recursion on fuel keeps it
kernel-evaluable; fuel `≥ l.length` is always enough because a match
consumes at least one character. -/
def removeSubAux (pat : List Char) : ℕ → List Char → List Char
  | _, [] => []
  | 0, l => l
  | fuel + 1, c :: rest =>
    if pat ≠ [] ∧ pat.isPrefixOf (c :: rest)
    then removeSubAux pat fuel ((c :: rest).drop pat.length)
    else c :: removeSubAux pat fuel rest

/-- `s.replace(pat, '')`. -/
def removeSub (pat l : List Char) : List Char := removeSubAux pat l.length l

/-- `[hstr[i:i+2] for i in range(0, len(hstr), 2)]`: split into 2-character
byte tokens; the final token is a single character when the length is odd. -/
def chunks2 : List Char → List Tok
  | [] => []
  | [a] => [[a]]
  | a :: b :: t => [a, b] :: chunks2 t

/-- `ParseDownlink._validatehex`: `True` when some character of `hstr` lies
outside `'0123456789abcdef' + dl.lower()`. -/
def validatehex (hstr dl : List Char) : Bool :=
  hstr.any (fun c => !(isLHex c || (dl.map asciiLower).contains c))

/-- The cleaned character string of `_cleaninput`:
`hstr.lower().strip().replace(' ','').replace(dlim,'').replace('\t','')
.replace('\r','').replace('\n','')`. -/
def cleanChars (hstr dlim : List Char) : List Char :=
  removeSub ['\n'] (removeSub ['\r'] (removeSub ['\t']
    (removeSub dlim (removeSub [' '] (pyStrip (hstr.map asciiLower))))))

/-- `ParseDownlink._cleaninput`: the byte-token list and the error message. -/
def cleaninput (hstr dlim : List Char) : List Tok × String :=
  let c := cleanChars hstr dlim
  if c.length = 0 then ([], "\t\t\tString is empty")
  else if validatehex c dlim then ([], "\t\t\tInvalid character found in string")
  else (chunks2 c, "")

theorem chunks2_mem : ∀ l : List Char, ∀ t ∈ chunks2 l,
    (1 ≤ t.length ∧ t.length ≤ 2) ∧ ∀ c ∈ t, c ∈ l := by
  intro l
  induction l using chunks2.induct with
  | case1 => simp [chunks2]
  | case2 a =>
    intro t ht
    simp only [chunks2, List.mem_singleton] at ht
    subst ht
    refine ⟨by simp, by simp⟩
  | case3 a b rest ih =>
    intro t ht
    simp only [chunks2, List.mem_cons] at ht
    rcases ht with rfl | ht'
    · refine ⟨by simp, by intro c hc; simp at hc; rcases hc with rfl | rfl <;> simp⟩
    · obtain ⟨hlen, hmem⟩ := ih t ht'
      exact ⟨hlen, fun c hc => by simp [hmem c hc]⟩

theorem chunks2_dropLast_two : ∀ l : List Char, ∀ t ∈ (chunks2 l).dropLast, t.length = 2 := by
  intro l
  induction l using chunks2.induct with
  | case1 => simp [chunks2]
  | case2 a => simp [chunks2]
  | case3 a b rest ih =>
    intro t ht
    match hr : chunks2 rest with
    | [] => rw [chunks2] at ht; rw [hr] at ht; simp at ht
    | u :: us =>
      rw [chunks2, hr] at ht
      rw [List.dropLast_cons_of_ne_nil (by simp)] at ht
      rcases List.mem_cons.mp ht with rfl | ht'
      · rfl
      · exact ih t (by rw [hr]; exact ht')

theorem chunks2_length : ∀ l : List Char, (chunks2 l).length = (l.length + 1) / 2 := by
  intro l
  induction l using chunks2.induct with
  | case1 => simp [chunks2]
  | case2 a => simp [chunks2]
  | case3 a b rest ih => simp [chunks2, ih]; omega

theorem chunks2_even_two : ∀ l : List Char, l.length % 2 = 0 → ∀ t ∈ chunks2 l, t.length = 2 := by
  intro l
  induction l using chunks2.induct with
  | case1 => simp [chunks2]
  | case2 a => intro h; simp at h
  | case3 a b rest ih =>
    intro h t ht
    simp only [chunks2, List.mem_cons] at ht
    rcases ht with rfl | ht'
    · rfl
    · exact ih (by simp at h; omega) t ht'

theorem chunks2_ne_nil : ∀ l : List Char, l ≠ [] → chunks2 l ≠ [] := by
  intro l hne
  match l with
  | [] => exact absurd rfl hne
  | [a] => simp [chunks2]
  | a :: b :: t => simp [chunks2]

theorem validatehex_false_mem (c dl : List Char) (h : validatehex c dl = false) :
    ∀ x ∈ c, isLHex x = true ∨ x ∈ dl.map asciiLower := by
  intro x hx
  have h1 := List.any_eq_false.mp h x hx
  have h2 : (isLHex x || (dl.map asciiLower).contains x) = true := by
    cases hb : (isLHex x || (dl.map asciiLower).contains x)
    · exact absurd (by rw [hb]; rfl) h1
    · rfl
  rcases (Bool.or_eq_true _ _).mp h2 with h3 | h3
  · exact Or.inl h3
  · right
    rw [List.contains_eq_any_beq] at h3
    obtain ⟨y, hy, hxy⟩ := List.any_eq_true.mp h3
    exact (show x = y by simpa using hxy) ▸ hy

/-- **C8 (amended).** For every input the normalizer accepts (non-empty after
cleaning and passing `_validatehex`), the RawFrame token list is non-empty;
every token has 1 or 2 characters drawn from the hex alphabet or the
lowercased delimiter; every token except possibly the last has exactly 2
characters; the token count is `⌈len/2⌉`; and when the cleaned string has
even length and consists of hex digits only (as whenever the delimiter
contributes no surviving characters), every token is a valid 2-character
hex byte.  (As stated, the claim fails: an odd-length cleaned string such
as `"abc"` is accepted and produces a final 1-character token.) -/
theorem C8_cleaninput_tokens (hstr dlim : List Char) (cl : List Tok)
    (hacc : cleaninput hstr dlim = (cl, "")) :
    cl ≠ []
    ∧ (∀ t ∈ cl, (1 ≤ t.length ∧ t.length ≤ 2)
        ∧ ∀ c ∈ t, isLHex c = true ∨ c ∈ dlim.map asciiLower)
    ∧ (∀ t ∈ cl.dropLast, t.length = 2)
    ∧ cl.length = ((cleanChars hstr dlim).length + 1) / 2
    ∧ ((cleanChars hstr dlim).length % 2 = 0 →
        (∀ c ∈ cleanChars hstr dlim, isLHex c = true) →
        ∀ t ∈ cl, t.length = 2 ∧ ∀ c ∈ t, isLHex c = true) := by
  have hlen0 : ¬ (cleanChars hstr dlim).length = 0 := by
    intro h0
    rw [cleaninput] at hacc
    simp only [h0, if_pos rfl] at hacc
    exact absurd (congrArg Prod.snd hacc) (by simp)
  have hval : validatehex (cleanChars hstr dlim) dlim = false := by
    cases hv : validatehex (cleanChars hstr dlim) dlim
    · rfl
    · rw [cleaninput] at hacc
      simp only [if_neg hlen0, hv, if_pos rfl] at hacc
      exact absurd (congrArg Prod.snd hacc) (by simp)
  have hcl : cl = chunks2 (cleanChars hstr dlim) := by
    rw [cleaninput] at hacc
    simp only [if_neg hlen0, hval, Bool.false_eq_true, if_false] at hacc
    exact (congrArg Prod.fst hacc).symm
  have hchar := validatehex_false_mem _ _ hval
  subst hcl
  refine ⟨?_, ?_, chunks2_dropLast_two _, chunks2_length _, ?_⟩
  · exact chunks2_ne_nil _ (by intro h0; rw [h0] at hlen0; exact hlen0 rfl)
  · intro t ht
    obtain ⟨hl, hm⟩ := chunks2_mem _ t ht
    exact ⟨hl, fun c hc => hchar c (hm c hc)⟩
  · intro heven hhex t ht
    exact ⟨chunks2_even_two _ heven t ht,
      fun c hc => hhex c ((chunks2_mem _ t ht).2 c hc)⟩

/-- Counterexample to C8 as stated: the 3-hex-character input `"abc"` is
accepted by the normalizer, yet the produced RawFrame `["ab", "c"]` has a
final token that is not a 2-character hex byte. -/
theorem C8_cleaninput_counterexample :
    cleaninput "abc".toList [] = ([['a', 'b'], ['c']], "")
      ∧ ¬ ∀ t ∈ (cleaninput "abc".toList []).1, t.length = 2 :=
  ⟨by decide, by decide⟩

/-- Witness for C8: the amended statement applied to the accepted input
`"a1b2"` with an empty delimiter. -/
theorem C8_cleaninput_witness :
    (cleaninput "a1b2".toList []).1 ≠ []
      ∧ ∀ t ∈ (cleaninput "a1b2".toList []).1, t.length = 2 ∧ ∀ c ∈ t, isLHex c = true := by
  have h := C8_cleaninput_tokens "a1b2".toList [] (cleaninput "a1b2".toList []).1 (by decide)
  exact ⟨h.1, h.2.2.2.2 (by decide) (by decide)⟩

/-! ### `_parsebinary` and the byte cursor (C3, C4) -/

/-- The byte cursor: `_parsebinary` destructively consumes the front of the
mutable `hexarray` list, which we model by threading the remaining token
list through the `Except` monad. -/
abbrev M := StateT (List Tok) (Except PyErr)

/-- `''.join([data[i] for i in reversed(range(n))])` followed by
`[data.pop(i) for i in reversed(range(n))]`: read the first `n` byte tokens
in reverse order and remove them.  Accessing `data[n-1]` on a shorter list
raises `IndexError` before any mutation. -/
def takeBytes (n : ℕ) : M (List Char) := fun data =>
  if n ≤ data.length then
    .ok ((((List.range n).reverse).map (fun i => data.getD i [])).flatten, data.drop n)
  else .error .indexError

/-- Run a pure `Except` computation without touching the cursor. -/
def liftE {α : Type} (e : Except PyErr α) : M α := fun data =>
  e.map (fun a => (a, data))

/-- `hexarray.pop(0)` with the value discarded (schema padding bytes). -/
def popFront : M Unit := fun data =>
  match data with
  | [] => .error .indexError
  | _ :: rest => .ok ((), rest)

/-- `str.lower()` on an ASCII string. -/
def pyLowerS (s : String) : String := String.mk (s.toList.map asciiLower)

/-- The bit-flag list of the `bool*` branches of `_parsebinary`:
`nleadingzeros = numbytes * 8 + 2 - len(bin(num))`, then
`[int(char) for char in list('0' * nleadingzeros + bin(num)[2:])[::-1]]`.
Note the padding width uses the `numbytes` argument even in the fixed-width
`bool8`/`bool16`/`bool32` branches. -/
def boolBits (numbytes num : ℕ) : List ℕ :=
  ((List.replicate (numbytes * 8 + 2 - (2 + (binDigits num).length)) '0'
    ++ binDigits num).reverse).map charBit

/-- `ParseDownlink._parsebinary(data, dtype, numbytes=1)`. -/
def parsebinaryM (dtype : String) (numbytes : ℕ := 1) : M PB :=
  let d := pyLowerS dtype
  if d = "uint8" then do
    let hexnum ← takeBytes 1
    let num ← liftE (pyIntHex hexnum)
    pure (.int num)
  else if d = "uint16" then do
    let hexnum ← takeBytes 2
    let num ← liftE (pyIntHex hexnum)
    pure (.int num)
  else if d = "uint32" then do
    let hexnum ← takeBytes 4
    let num ← liftE (pyIntHex hexnum)
    pure (.int num)
  else if d = "uint" then do
    let hexnum ← takeBytes numbytes
    let num ← liftE (pyIntHex hexnum)
    pure (.int num)
  else if d = "int8" then do
    let hexnum ← takeBytes 1
    let num ← liftE (pyIntHex hexnum)
    pure (.int (if (num : ℤ) ≥ 2 ^ 7 then (num : ℤ) - 2 ^ 8 else (num : ℤ)))
  else if d = "int16" then do
    let hexnum ← takeBytes 2
    let num ← liftE (pyIntHex hexnum)
    pure (.int (if (num : ℤ) ≥ 2 ^ 15 then (num : ℤ) - 2 ^ 16 else (num : ℤ)))
  else if d = "int32" then do
    let hexnum ← takeBytes 4
    let num ← liftE (pyIntHex hexnum)
    pure (.int (if (num : ℤ) ≥ 2 ^ 31 then (num : ℤ) - 2 ^ 32 else (num : ℤ)))
  else if d = "int" then do
    let hexnum ← takeBytes numbytes
    let num ← liftE (pyIntHex hexnum)
    pure (.int (if (num : ℤ) ≥ 2 ^ (numbytes * 8 - 1)
      then (num : ℤ) - 2 ^ (numbytes * 8) else (num : ℤ)))
  else if d = "bool8" then do
    let hexnum ← takeBytes 1
    let num ← liftE (pyIntHex hexnum)
    pure (.bits (boolBits numbytes num))
  else if d = "bool16" then do
    let hexnum ← takeBytes 2
    let num ← liftE (pyIntHex hexnum)
    pure (.bits (boolBits numbytes num))
  else if d = "bool32" then do
    let hexnum ← takeBytes 4
    let num ← liftE (pyIntHex hexnum)
    pure (.bits (boolBits numbytes num))
  else if d = "bool" then do
    let hexnum ← takeBytes numbytes
    let num ← liftE (pyIntHex hexnum)
    pure (.bits (boolBits numbytes num))
  else if d = "single" then do
    let hexnum ← takeBytes 4
    let q ← liftE (hextofloatL hexnum)
    pure (.flt q)
  else if d = "double" then do
    let hexnum ← takeBytes 8
    let q ← liftE (hextodoubleL hexnum)
    pure (.flt q)
  else pure .none

/-- Projection used at every `_parsebinary` call site that reads an integer
dtype: Python's dynamic typing guarantees an `int` there, so the
`.typeError` default is unreachable for the dtype literals the module uses. -/
def pbInt (dtype : String) (numbytes : ℕ := 1) : M ℤ := do
  match ← parsebinaryM dtype numbytes with
  | .int z => pure z
  | _ => liftE (.error .typeError)

/-- Projection for the `'single'`/`'double'` call sites. -/
def pbFloat (dtype : String) : M ℚ := do
  match ← parsebinaryM dtype with
  | .flt q => pure q
  | _ => liftE (.error .typeError)

/-- Projection for the `_parsebinary(hexarray, 'bool', n)` call sites. -/
def pbBits (numbytes : ℕ) : M (List ℕ) := do
  match ← parsebinaryM "bool" numbytes with
  | .bits l => pure l
  | _ => liftE (.error .typeError)

/-- Python slicing `l[a:b]` with possibly negative bounds. -/
def pySliceZ (l : List Char) (a b : ℤ) : List Char :=
  let n : ℤ := l.length
  let a' := if a < 0 then max (n + a) 0 else min a n
  let b' := if b < 0 then max (n + b) 0 else min b n
  if a' < b' then (l.drop a'.toNat).take (b' - a').toNat else []

/-- `getkbits8(num, k, p)` (defined identically inside `_vutrx` and `_stx`):
pad `bin(num)[2:]` on the left to 8 characters, then read
`binary[8-p-k : 8-p]` as a binary numeral.  For negative `num` the text
still holds the `b` of the `-0b` prefix, and for wide `num` the slice can
be empty or contain that `b`, making `int(…, 2)` raise `ValueError`. -/
def getkbits8E (num : ℤ) (k p : ℕ) : Except PyErr ℕ :=
  let binary := pyBin num
  let binary2 := List.replicate (8 - binary.length) '0' ++ binary
  let e : ℤ := 8 - (p : ℤ) - 1
  let s : ℤ := e - (k : ℤ) + 1
  pyIntBin (pySliceZ binary2 s (e + 1))

example : getkbits8E 0 12 4 = .ok 0 := by decide
example : getkbits8E 2048 12 4 = .error .valueError := by decide
example : getkbits8E (-2000) 12 4 = .error .valueError := by decide
example : getkbits8E (-32) 12 4 = .ok 2 := by decide
example : getkbits8E (-15) 12 4 = .error .valueError := by decide
example : getkbits8E 5 1 0 = .ok 1 := by decide
example : getkbits8E 5 1 1 = .ok 0 := by decide
example : getkbits8E 179 4 0 = .ok 3 := by decide
example : getkbits8E 179 4 4 = .ok 11 := by decide
example : getkbits8E 2000 12 4 = .ok 1 := by decide
example : parsebinaryM "uint16" 1 [['0', '1'], ['0', '2'], ['0', '3']]
    = .ok (.int 513, [['0', '3']]) := by decide
example : parsebinaryM "int8" 1 [['f', 'f']] = .ok (.int (-1), []) := by decide
example : parsebinaryM "bool" 1 [['0', '5']]
    = .ok (.bits [1, 0, 1, 0, 0, 0, 0, 0], []) := by decide
example : parsebinaryM "bool16" 1 [['0', '0'], ['0', '1']]
    = .ok (.bits [0, 0, 0, 0, 0, 0, 0, 0, 1], []) := by decide
section RatKernelEvalPB

attribute [local semireducible] Rat.mul Rat.add Rat.sub Rat.inv Rat.ofScientific

example : parsebinaryM "single" 1 [['0', '0'], ['0', '0'], ['8', '0'], ['3', 'f']]
    = .ok (.flt 1, []) := by decide

end RatKernelEvalPB

/-- A well-formed byte token of a cleaned frame: one or two lowercase hex
characters. -/
def isHexTok (t : Tok) : Prop := t ≠ [] ∧ t.length ≤ 2 ∧ ∀ c ∈ t, isLHex c = true

instance (t : Tok) : Decidable (isHexTok t) := by
  unfold isHexTok
  infer_instance

theorem map_range_getD (data : List Tok) (n : ℕ) (h : n ≤ data.length) :
    (List.range n).map (fun i => data.getD i []) = data.take n := by
  apply List.ext_getElem
  · simp [h]
  · intro i h1 h2
    simp only [List.length_map, List.length_range] at h1
    simp only [List.getElem_map, List.getElem_range, List.getElem_take]
    rw [List.getD_eq_getElem?_getD, List.getElem?_eq_getElem (by omega)]
    simp

theorem takeBytes_eq (n : ℕ) (data : List Tok) (h : n ≤ data.length) :
    takeBytes n data = .ok (((data.take n).reverse).flatten, data.drop n) := by
  unfold takeBytes
  rw [if_pos h, List.map_reverse, map_range_getD data n h]

theorem flatten_tok_hex (l : List Tok) (hne : l ≠ []) (hh : ∀ t ∈ l, isHexTok t) :
    (l.reverse).flatten ≠ [] ∧ ∀ c ∈ (l.reverse).flatten, isLHex c = true := by
  constructor
  · obtain ⟨t, ht⟩ := List.exists_mem_of_ne_nil l hne
    intro hflat
    have hall := List.flatten_eq_nil_iff.mp hflat
    exact (hh t ht).1 (hall t (List.mem_reverse.mpr ht))
  · intro c hc
    obtain ⟨t, ht, hct⟩ := List.mem_flatten.mp hc
    exact (hh t (List.mem_reverse.mp ht)).2.2 c hct

theorem pyIntHex_hex (l : List Char) (hne : l ≠ []) (hh : ∀ c ∈ l, isLHex c = true) :
    pyIntHex l = .ok (hexVal l) := by
  unfold pyIntHex
  rw [if_pos ⟨hne, List.all_eq_true.mpr hh⟩]

/-- Evaluation of the shared shape of every integer/bit-flag branch of
`_parsebinary` on a cursor holding at least `w` well-formed byte tokens. -/
theorem armInt_eval (w : ℕ) (tr : ℕ → PB) (data : List Tok)
    (h1 : 1 ≤ w) (h2 : w ≤ data.length) (hh : ∀ t ∈ data.take w, isHexTok t) :
    (do let hexnum ← takeBytes w
        let num ← liftE (pyIntHex hexnum)
        pure (tr num) : M PB) data
      = .ok (tr (hexVal (((data.take w).reverse).flatten)), data.drop w) := by
  have htake_ne : data.take w ≠ [] := by
    intro h0
    have hlen := congrArg List.length h0
    simp only [List.length_take, List.length_nil] at hlen
    omega
  obtain ⟨hne, hhex⟩ := flatten_tok_hex (data.take w) htake_ne hh
  show Except.bind (takeBytes w data) _ = _
  rw [takeBytes_eq w data h2]
  show Except.bind (liftE (pyIntHex (((data.take w).reverse).flatten)) (data.drop w)) _ = _
  rw [show liftE (pyIntHex (((data.take w).reverse).flatten)) (data.drop w)
      = Except.map (fun a => (a, data.drop w)) (pyIntHex (((data.take w).reverse).flatten)) from rfl,
    pyIntHex_hex _ hne hhex]
  rfl

/-- **C3.** For every byte-token list with at least `N ≥ 1` well-formed
tokens remaining, the unsigned dtypes of `_parsebinary` concatenate the
first `N` tokens in reverse order, remove exactly those `N` tokens from the
front, and return the hex value of the concatenation as an unsigned
integer; the signed dtypes return that value minus `2^(8N)` exactly when it
is at least `2^(8N−1)`; the fixed-width dtypes coincide with the generic
`uint`/`int` at widths 1, 2 and 4. -/
theorem C3_parsebinary_integers :
    ∀ (data : List Tok) (N : ℕ), 1 ≤ N → N ≤ data.length →
      (∀ t ∈ data.take N, isHexTok t) →
      parsebinaryM "uint" N data
          = .ok (.int (hexVal (((data.take N).reverse).flatten)), data.drop N)
      ∧ parsebinaryM "int" N data
          = .ok (.int (if (hexVal (((data.take N).reverse).flatten) : ℤ) ≥ 2 ^ (N * 8 - 1)
              then (hexVal (((data.take N).reverse).flatten) : ℤ) - 2 ^ (N * 8)
              else (hexVal (((data.take N).reverse).flatten) : ℤ)), data.drop N)
      ∧ (∀ (nb : ℕ) (data' : List Tok),
          parsebinaryM "uint8" nb data' = parsebinaryM "uint" 1 data'
          ∧ parsebinaryM "uint16" nb data' = parsebinaryM "uint" 2 data'
          ∧ parsebinaryM "uint32" nb data' = parsebinaryM "uint" 4 data'
          ∧ parsebinaryM "int8" nb data' = parsebinaryM "int" 1 data'
          ∧ parsebinaryM "int16" nb data' = parsebinaryM "int" 2 data'
          ∧ parsebinaryM "int32" nb data' = parsebinaryM "int" 4 data') := by
  intro data N h1 h2 hh
  refine ⟨?_, ?_, ?_⟩
  · exact armInt_eval N (fun num => .int num) data h1 h2 hh
  · exact armInt_eval N (fun num => .int (if (num : ℤ) ≥ 2 ^ (N * 8 - 1)
      then (num : ℤ) - 2 ^ (N * 8) else (num : ℤ))) data h1 h2 hh
  · intro nb data'
    exact ⟨rfl, rfl, rfl, rfl, rfl, rfl⟩

/-- Witness for C3: two tokens `"00" "80"` read little-endian give the
unsigned value `0x8000 = 32768` and the signed value `−32768`. -/
theorem C3_parsebinary_integers_witness :
    parsebinaryM "uint" 2 [['0', '0'], ['8', '0']] = .ok (.int 32768, [])
      ∧ parsebinaryM "int" 2 [['0', '0'], ['8', '0']] = .ok (.int (-32768), []) := by
  have h := C3_parsebinary_integers [['0', '0'], ['8', '0']] 2 (by norm_num) (by decide) (by decide)
  refine ⟨?_, ?_⟩
  · rw [h.1]
    decide
  · rw [h.2.1]
    decide

theorem flatten_len_le (l : List Tok) (hh : ∀ t ∈ l, t.length ≤ 2) :
    l.flatten.length ≤ 2 * l.length := by
  induction l with
  | nil => simp
  | cons t rest ih =>
    simp only [List.flatten_cons, List.length_append, List.length_cons]
    have ha := hh t (by simp)
    have hb := ih (fun u hu => hh u (by simp [hu]))
    omega

theorem boolBits_eq (N num : ℕ) (h1 : 1 ≤ N) (hnum : num < 2 ^ (N * 8)) :
    boolBits N num = (List.range (N * 8)).map (fun i => (num.testBit i).toNat) := by
  unfold boolBits
  have hp : List.replicate (N * 8 + 2 - (2 + (binDigits num).length)) '0' ++ binDigits num
      = padLeft (N * 8) (binDigits num) := by
    unfold padLeft
    congr 2
    omega
  rw [hp, padLeft_binDigits (N * 8) (by omega) num hnum, List.map_reverse,
    List.map_map, List.map_reverse, List.reverse_reverse]
  apply List.map_congr_left
  intro i _
  show charBit (bitChar (num.testBit i)) = (num.testBit i).toNat
  cases num.testBit i <;> rfl

/-- **C4.** For every `N ≥ 1` and byte-token list with at least `N`
well-formed tokens, consuming `N` bytes with dtype `'bool'` (the variant
every call site uses) removes the first `N` tokens and returns exactly
`8N` bits, least-significant first, of the little-endian value of the
consumed bytes; in particular one byte `0x05` yields
`[1,0,1,0,0,0,0,0]`.  The fixed-width `'bool16'` branch, however, pads with
the `numbytes` argument (default 1) instead of its own width, so
`_parsebinary(["00","01"], 'bool16')` returns the 9-element list
`[0,0,0,0,0,0,0,0,1]` rather than 16 bits — the code slip behind the
`code_bug` verdict. -/
theorem C4_parsebinary_bitarray :
    (∀ (data : List Tok) (N : ℕ), 1 ≤ N → N ≤ data.length →
        (∀ t ∈ data.take N, isHexTok t) →
        parsebinaryM "bool" N data
          = .ok (.bits ((List.range (N * 8)).map
              (fun i => ((hexVal (((data.take N).reverse).flatten)).testBit i).toNat)),
              data.drop N))
      ∧ parsebinaryM "bool" 1 [['0', '5']] = .ok (.bits [1, 0, 1, 0, 0, 0, 0, 0], [])
      ∧ parsebinaryM "bool16" 1 [['0', '0'], ['0', '1']]
          = .ok (.bits [0, 0, 0, 0, 0, 0, 0, 0, 1], []) := by
  refine ⟨?_, by decide, by decide⟩
  intro data N h1 h2 hh
  have hflen : (((data.take N).reverse).flatten).length ≤ 2 * N := by
    have hb := flatten_len_le ((data.take N).reverse)
      (fun t ht => (hh t (List.mem_reverse.mp ht)).2.1)
    simpa [List.length_reverse, List.length_take, Nat.min_eq_left h2] using hb
  have hv : hexVal (((data.take N).reverse).flatten) < 2 ^ (N * 8) := by
    calc hexVal (((data.take N).reverse).flatten)
        < 16 ^ (((data.take N).reverse).flatten).length := hexVal_lt_pow _
      _ ≤ 16 ^ (2 * N) := Nat.pow_le_pow_right (by norm_num) hflen
      _ = 2 ^ (N * 8) := by
          rw [show (16 : ℕ) = 2 ^ 4 from rfl, ← Nat.pow_mul]
          congr 1
          ring
  have harm := armInt_eval N (fun num => .bits (boolBits N num)) data h1 h2 hh
  simp only [] at harm
  rw [boolBits_eq N _ h1 hv] at harm
  exact harm

/-- Witness for C4: the generic bit-array decode applied to the two bytes
`"ab" "cd"` (value `0xcdab`), yielding its 16 bits LSB-first. -/
theorem C4_parsebinary_bitarray_witness :
    parsebinaryM "bool" 2 [['a', 'b'], ['c', 'd']]
      = .ok (.bits [1, 1, 0, 1, 0, 1, 0, 1, 1, 0, 1, 1, 0, 0, 1, 1], []) := by
  have h := C4_parsebinary_bitarray.1 [['a', 'b'], ['c', 'd']] 2 (by norm_num) (by decide) (by decide)
  rw [h]
  decide

/-! ### The subsystem schema parsers -/

def cdhRecA (v1 v2 v3 v4 v5 v6 v7 v8 v9 v10 v11 v12 : ℤ) (v13 v14 : ℚ)
    (v15 v16 : ℤ) (v17 v18 v19 : ℚ) (v20 v21 v22 : ℤ) : Record :=
  [("cdh_deployment_isis", .num (v1 : ℚ)),
    ("cdh_deployment_solarpanel", .num (v2 : ℚ)),
    ("cdh_deployment_magnetometer", .num (v3 : ℚ)),
    ("cdh_deployment_payload", .num (v4 : ℚ)),
    ("cdh_deployment_magnetometer_deployattempts", .num (v5 : ℚ)),
    ("cdh_bootcounter", .num (v6 : ℚ)),
    ("cdh_programduration", .num (v7 : ℚ)),
    ("cdh_deployment_satellite", .num (v8 : ℚ)),
    ("cdh_currentmode", .num (v9 : ℚ)),
    ("cdh_temperature_obc", .num ((v10 : ℚ) / 100000000)),
    ("cdh_temperature_motor", .num ((v11 : ℚ) / 100000000)),
    ("cdh_temperature_vlf", .num ((v12 : ℚ) / 100000000)),
    ("cdh_usage_cpu", .num (v13 * 100)),
    ("cdh_usage_memory", .num (v14 / 1024 / 1024)),
    ("cdh_usage_camera", .num (v15 : ℚ)),
    ("cdh_usage_science", .num (v16 : ℚ)),
    ("cdh_batterythreshold_safe", .num v17),
    ("cdh_batterythreshold_low", .num v18),
    ("cdh_batterythreshold_critical", .num v19),
    ("cdh_beacon_state", .num (v20 : ℚ)),
    ("cdh_downlink_status", .num (v21 : ℚ)),
    ("cdh_downlink_frequency", .num (v22 : ℚ))]

def cdhRecB (v23 v24 v25 v26 v27 v28 v29 v30 v31 v32 v33 v34 v35 : ℤ)
    (v36 v37 v38 v39 v40 v41 : ℚ) (v42 v43 v44 v45 : ℤ) : Record :=
  [("cdh_beacon_frequency_tx", .num (v23 : ℚ)),
    ("cdh_beacon_frequency_rx", .num (v24 : ℚ)),
    ("cdh_beacon_lastuplinktime", .num (v25 : ℚ)),
    ("cdh_downlink_scienceradio", .num (v26 : ℚ)),
    ("cdh_downlink_imageradio", .num (v27 : ℚ)),
    ("cdh_beacon_speed", .num (v28 : ℚ)),
    ("cdh_downlink_vutrxpower", .num (v29 : ℚ)),
    ("cdh_downlink_stxpower", .num (v30 : ℚ)),
    ("cdh_scienceready", .num (v31 : ℚ)),
    ("cdh_detumble_memsmultiplier", .num (v32 : ℚ)),
    ("cdh_detumble_detumblestate", .num (v33 : ℚ)),
    ("cdh_detumble_angularestimator", .num (v34 : ℚ)),
    ("cdh_detumble_controlmode", .num (v35 : ℚ)),
    ("cdh_detumble_angularthreshold_high_x", .num v36),
    ("cdh_detumble_angularthreshold_high_y", .num v37),
    ("cdh_detumble_angularthreshold_high_z", .num v38),
    ("cdh_detumble_angularthreshold_low_x", .num v39),
    ("cdh_detumble_angularthreshold_low_y", .num v40),
    ("cdh_detumble_angularthreshold_low_z", .num v41),
    ("cdh_detumble_flag_tle", .num (v42 : ℚ)),
    ("cdh_detumble_flag_ymomentum", .num (v43 : ℚ)),
    ("cdh_detumble_flag_ywheel", .num (v44 : ℚ)),
    ("cdh_detumble_flag_previouscontrolonset", .num (v45 : ℚ))]

/-- The ordered field mapping `_cdh` builds (one entry per `ordict[…] = …`
line of the source, in order, with each line's scale transform applied;
split in two halves only to keep list literals short). -/
def cdhRec (v1 v2 v3 v4 v5 v6 v7 v8 v9 v10 v11 v12 : ℤ) (v13 v14 : ℚ)
    (v15 v16 : ℤ) (v17 v18 v19 : ℚ)
    (v20 v21 v22 v23 v24 v25 v26 v27 v28 v29 v30 v31 v32 v33 v34 v35 : ℤ)
    (v36 v37 v38 v39 v40 v41 : ℚ) (v42 v43 v44 v45 : ℤ) : Record :=
  cdhRecA v1 v2 v3 v4 v5 v6 v7 v8 v9 v10 v11 v12 v13 v14 v15 v16 v17 v18 v19 v20 v21 v22
    ++ cdhRecB v23 v24 v25 v26 v27 v28 v29 v30 v31 v32 v33 v34 v35
        v36 v37 v38 v39 v40 v41 v42 v43 v44 v45

/-- `ParseDownlink._cdh`: 112 bytes of command-and-data-handling telemetry.
Each `let` line is one `_parsebinary` read (or padding `pop(0)`) of the
source, in order. -/
def cdh : M Record := do
  let v1 ← pbInt "uint8"
  let v2 ← pbInt "uint8"
  let v3 ← pbInt "uint8"
  let v4 ← pbInt "uint8"
  let v5 ← pbInt "uint8"
  let _ ← popFront
  let v6 ← pbInt "uint16"
  let v7 ← pbInt "uint32"
  let v8 ← pbInt "uint8"
  let v9 ← pbInt "uint8"
  let v10 ← pbInt "uint32"
  let v11 ← pbInt "uint32"
  let v12 ← pbInt "uint32"
  let _ ← popFront
  let _ ← popFront
  let v13 ← pbFloat "single"
  let v14 ← pbFloat "single"
  let v15 ← pbInt "uint32"
  let v16 ← pbInt "uint32"
  let v17 ← pbFloat "single"
  let v18 ← pbFloat "single"
  let v19 ← pbFloat "single"
  let v20 ← pbInt "uint8"
  let v21 ← pbInt "uint8"
  let v22 ← pbInt "uint16"
  let v23 ← pbInt "uint16"
  let v24 ← pbInt "uint16"
  let v25 ← pbInt "uint32"
  let v26 ← pbInt "uint8"
  let v27 ← pbInt "uint8"
  let v28 ← pbInt "uint16"
  let v29 ← pbInt "uint8"
  let v30 ← pbInt "uint8"
  let v31 ← pbInt "uint8"
  let v32 ← pbInt "uint8"
  let v33 ← pbInt "uint8"
  let v34 ← pbInt "uint8"
  let v35 ← pbInt "uint8"
  let _ ← popFront
  let v36 ← pbFloat "single"
  let v37 ← pbFloat "single"
  let v38 ← pbFloat "single"
  let v39 ← pbFloat "single"
  let v40 ← pbFloat "single"
  let v41 ← pbFloat "single"
  let v42 ← pbInt "uint8"
  let v43 ← pbInt "uint8"
  let v44 ← pbInt "uint8"
  let _ ← popFront
  let v45 ← pbInt "uint32"
  pure (cdhRec v1 v2 v3 v4 v5 v6 v7 v8 v9 v10 v11 v12 v13 v14 v15 v16 v17 v18 v19
    v20 v21 v22 v23 v24 v25 v26 v27 v28 v29 v30 v31 v32 v33 v34 v35
    v36 v37 v38 v39 v40 v41 v42 v43 v44 v45)

/-- The ordered field mapping `_adac` builds.  `bs` and `cs` are the two
bit-flag lists; the remaining arguments are the integer reads in source
order, with each line's scale transform applied here. -/
def adacRecA (bs : List ℕ) (b1 b2 b3 b4 b5 b6 b7 : ℤ) : Record :=
  [("adac_bootstatus_newselection", .num (bs.getD 0 0 : ℚ)),
   ("adac_bootstatus_bootsuccess", .num (bs.getD 1 0 : ℚ)),
   ("adac_bootstatus_failedbootattempt_1", .num (bs.getD 2 0 : ℚ)),
   ("adac_bootstatus_failedbootattempt_2", .num (bs.getD 3 0 : ℚ)),
   ("adac_bootstatus_failedbootattempt_3", .num (bs.getD 4 0 : ℚ)),
   ("adac_bootcounter", .num (b1 : ℚ)),
   ("adac_secondssinceboot", .num (b2 : ℚ)),
   ("adac_latchup_sram_1", .num (b3 : ℚ)),
   ("adac_latchup_sram_2", .num (b4 : ℚ)),
   ("adac_error_edac_single", .num (b5 : ℚ)),
   ("adac_error_edac_double", .num (b6 : ℚ)),
   ("adac_error_edac_multiple", .num (b7 : ℚ))]

def adacRecB (cs : List ℕ) : Record :=
  [("adac_currentstate_mode_attitudeestimation", .num (cs.getD 0 0 : ℚ)),
   ("adac_currentstate_mode_control", .num (cs.getD 1 0 : ℚ)),
   ("adac_currentstate_mode_adcsrun", .num (cs.getD 2 0 : ℚ)),
   ("adac_currentstate_enable_cubecontrol_signal", .num (cs.getD 3 0 : ℚ)),
   ("adac_currentstate_enable_cubecontrol_motor", .num (cs.getD 4 0 : ℚ)),
   ("adac_currentstate_enable_cubesense", .num (cs.getD 5 0 : ℚ)),
   ("adac_currentstate_enable_cubewheel_1", .num (cs.getD 6 0 : ℚ)),
   ("adac_currentstate_enable_cubewheel_2", .num (cs.getD 7 0 : ℚ)),
   ("adac_currentstate_enable_cubewheel_3", .num (cs.getD 8 0 : ℚ)),
   ("adac_currentstate_enable_cubestar", .num (cs.getD 9 0 : ℚ)),
   ("adac_currentstate_enable_gpsreceiver", .num (cs.getD 10 0 : ℚ)),
   ("adac_currentstate_enable_gpslnapower", .num (cs.getD 11 0 : ℚ)),
   ("adac_currentstate_enable_motordriver", .num (cs.getD 12 0 : ℚ)),
   ("adac_currentstate_sunabovehorizon", .num (cs.getD 13 0 : ℚ)),
   ("adac_currentstate_error_cubesense_communication", .num (cs.getD 14 0 : ℚ)),
   ("adac_currentstate_error_cubecontrol_signalcommunications", .num (cs.getD 15 0 : ℚ)),
   ("adac_currentstate_error_cubecontrol_motorcommunication", .num (cs.getD 16 0 : ℚ)),
   ("adac_currentstate_error_cubewheel_communication_1", .num (cs.getD 17 0 : ℚ)),
   ("adac_currentstate_error_cubewheel_communication_2", .num (cs.getD 18 0 : ℚ)),
   ("adac_currentstate_error_cubewheel_communication_3", .num (cs.getD 19 0 : ℚ))]

def adacRecC (cs : List ℕ) : Record :=
  [("adac_currentstate_error_cubestar_communication", .num (cs.getD 20 0 : ℚ)),
   ("adac_currentstate_error_magnetometer_range", .num (cs.getD 21 0 : ℚ)),
   ("adac_currentstate_error_sunsensor_overcurrent", .num (cs.getD 22 0 : ℚ)),
   ("adac_currentstate_error_sunsensor_busy", .num (cs.getD 23 0 : ℚ)),
   ("adac_currentstate_error_sunsensor_detection", .num (cs.getD 24 0 : ℚ)),
   ("adac_currentstate_error_sunsensor_range", .num (cs.getD 25 0 : ℚ)),
   ("adac_currentstate_error_nadirsensor_overcurrent", .num (cs.getD 26 0 : ℚ)),
   ("adac_currentstate_error_nadirsensor_busy", .num (cs.getD 27 0 : ℚ)),
   ("adac_currentstate_error_nadirsensor_detection", .num (cs.getD 28 0 : ℚ)),
   ("adac_currentstate_error_nadirsensor_range", .num (cs.getD 29 0 : ℚ)),
   ("adac_currentstate_error_ratesensor_range", .num (cs.getD 30 0 : ℚ)),
   ("adac_currentstate_error_wheelspeed_range", .num (cs.getD 31 0 : ℚ)),
   ("adac_currentstate_error_coarsesunsensor", .num (cs.getD 32 0 : ℚ)),
   ("adac_currentstate_error_startracker_match", .num (cs.getD 33 0 : ℚ)),
   ("adac_currentstate_error_startracker_overcurrent", .num (cs.getD 34 0 : ℚ)),
   ("adac_currentstate_invalid_orbitparameters", .num (cs.getD 35 0 : ℚ)),
   ("adac_currentstate_invalid_configuration", .num (cs.getD 36 0 : ℚ)),
   ("adac_currentstate_invalid_controlmodechange", .num (cs.getD 37 0 : ℚ)),
   ("adac_currentstate_invalid_estimatorchange", .num (cs.getD 38 0 : ℚ)),
   ("adac_currentstate_error_magneticfield_modelmeasurementdisagree", .num (cs.getD 39 0 : ℚ)),
   ("adac_currentstate_error_noderecovery", .num (cs.getD 40 0 : ℚ))]

def adacRecD (e1 e2 e3 e4 e5 e6 e7 e8 e9 e10 e11 e12 e13 e14 e15 e16 e17 e18 : ℤ)
    (n1 n2 n3 n4 n5 n6 n7 n8 n9 n10 : ℤ) : Record :=
  [("adac_estimated_roll", .num ((e1 : ℚ) * 0.01)),
   ("adac_estimated_pitch", .num ((e2 : ℚ) * 0.01)),
   ("adac_estimated_yaw", .num ((e3 : ℚ) * 0.01)),
   ("adac_estimated_angularrate_x", .num ((e4 : ℚ) * 0.01)),
   ("adac_estimated_angularrate_y", .num ((e5 : ℚ) * 0.01)),
   ("adac_estimated_angularrate_z", .num ((e6 : ℚ) * 0.01)),
   ("adac_estimated_position_x", .num ((e7 : ℚ) * 0.25)),
   ("adac_estimated_position_y", .num ((e8 : ℚ) * 0.25)),
   ("adac_estimated_position_z", .num ((e9 : ℚ) * 0.25)),
   ("adac_estimated_velocity_x", .num ((e10 : ℚ) * 0.25)),
   ("adac_estimated_velocity_y", .num ((e11 : ℚ) * 0.25)),
   ("adac_estimated_velocity_z", .num ((e12 : ℚ) * 0.25)),
   ("adac_estimated_magneticfield_x", .num ((e13 : ℚ) * 0.01)),
   ("adac_estimated_magneticfield_y", .num ((e14 : ℚ) * 0.01)),
   ("adac_estimated_magneticfield_z", .num ((e15 : ℚ) * 0.01)),
   ("adac_estimated_sunvector_x", .num ((e16 : ℚ) * 0.0001)),
   ("adac_estimated_sunvector_y", .num ((e17 : ℚ) * 0.0001)),
   ("adac_estimated_sunvector_z", .num ((e18 : ℚ) * 0.0001)),
   ("adac_measured_angularrate_x", .num ((n1 : ℚ) * 0.01)),
   ("adac_measured_angularrate_y", .num ((n2 : ℚ) * 0.01)),
   ("adac_measured_angularrate_z", .num ((n3 : ℚ) * 0.01)),
   ("adac_measured_wheel_x", .num (n4 : ℚ)),
   ("adac_measured_wheel_y", .num (n5 : ℚ)),
   ("adac_measured_wheel_z", .num (n6 : ℚ)),
   ("adac_magnetorquer_commands_x", .num ((n7 : ℚ) * 10)),
   ("adac_magnetorquer_commands_y", .num ((n8 : ℚ) * 10)),
   ("adac_magnetorquer_commands_z", .num ((n9 : ℚ) * 10)),
   ("adac_ywheel_command", .num (n10 : ℚ))]

def adacRecE (s1 s2 s3 s4 s5 s6 : ℤ) (r1 r2 r3 : ℤ) (c1 c2 c3 c4 : ℤ)
    (t1 t2 t3 t4 t5 : ℤ) : Record :=
  [("adac_raw_sunsensor_xpos", .num (s1 : ℚ)),
   ("adac_raw_sunsensor_ypos", .num (s2 : ℚ)),
   ("adac_raw_sunsensor_zpos", .num (s3 : ℚ)),
   ("adac_raw_sunsensor_xneg", .num (s4 : ℚ)),
   ("adac_raw_sunsensor_yneg", .num (s5 : ℚ)),
   ("adac_raw_sunsensor_zneg", .num (s6 : ℚ)),
   ("adac_raw_magnetometer_x", .num (r1 : ℚ)),
   ("adac_raw_magnetometer_y", .num (r2 : ℚ)),
   ("adac_raw_magnetometer_z", .num (r3 : ℚ)),
   ("adac_current_3v3", .num ((c1 : ℚ) * 0.48828125)),
   ("adac_current_5v", .num ((c2 : ℚ) * 0.48828125)),
   ("adac_current_vbat", .num ((c3 : ℚ) * 0.48828125)),
   ("adac_current_ywheel", .num ((c4 : ℚ) * 0.01)),
   ("adac_temperature_mcu", .num ((t1 : ℚ) * 1)),
   ("adac_temperature_magnetometer", .num ((t2 : ℚ) * 0.1)),
   ("adac_temperature_ratesensor_x", .num ((t3 : ℚ) * 1)),
   ("adac_temperature_ratesensor_y", .num ((t4 : ℚ) * 1)),
   ("adac_temperature_ratesensor_z", .num ((t5 : ℚ) * 1))]

def adacRecF (g1 g2 g3 g4 g5 g6 : ℤ) (gt1 gt2 : ℤ) (gp1 gv1 gp2 gv2 gp3 gv3 : ℤ) : Record :=
  [("adac_gpsstatus_solutionstatus", .num (g1 : ℚ)),
   ("adac_gpsstatus_trackedsatellites", .num (g2 : ℚ)),
   ("adac_gpsstatus_usedsatellites", .num (g3 : ℚ)),
   ("adac_gpsstatus_xyzlofcounter", .num (g4 : ℚ)),
   ("adac_gpsstatus_rangelogcounter", .num (g5 : ℚ)),
   ("adac_gpsstatus_responsemessage", .num (g6 : ℚ)),
   ("adac_gps_time", .num ((gt1 : ℚ) / 1000 + 315964800 + ((gt2 : ℚ) + 2048) * 7 * 24 * 60 * 60)),
   ("adac_gps_position_x", .num ((gp1 : ℚ) * 0.001)),
   ("adac_gps_velocity_x", .num ((gv1 : ℚ) * 0.001)),
   ("adac_gps_position_y", .num ((gp2 : ℚ) * 0.001)),
   ("adac_gps_velocity_y", .num ((gv2 : ℚ) * 0.001)),
   ("adac_gps_position_z", .num ((gp3 : ℚ) * 0.001)),
   ("adac_gps_velocity_z", .num ((gv3 : ℚ) * 0.001))]

/-- The ordered field mapping `_adac` builds (one entry per `ordict[…] = …`
line of the source, in order, with each line's scale transform applied;
split into parts only to keep list literals short). -/
def adacRec (bs : List ℕ) (b1 b2 b3 b4 b5 b6 b7 : ℤ) (cs : List ℕ)
    (e1 e2 e3 e4 e5 e6 e7 e8 e9 e10 e11 e12 e13 e14 e15 e16 e17 e18 : ℤ)
    (n1 n2 n3 n4 n5 n6 n7 n8 n9 n10 : ℤ) (s1 s2 s3 s4 s5 s6 : ℤ)
    (r1 r2 r3 : ℤ) (c1 c2 c3 c4 : ℤ) (t1 t2 t3 t4 t5 : ℤ)
    (g1 g2 g3 g4 g5 g6 : ℤ) (gt1 gt2 : ℤ) (gp1 gv1 gp2 gv2 gp3 gv3 : ℤ) : Record :=
  adacRecA bs b1 b2 b3 b4 b5 b6 b7 ++ adacRecB cs ++ adacRecC cs
    ++ adacRecD e1 e2 e3 e4 e5 e6 e7 e8 e9 e10 e11 e12 e13 e14 e15 e16 e17 e18
        n1 n2 n3 n4 n5 n6 n7 n8 n9 n10
    ++ adacRecE s1 s2 s3 s4 s5 s6 r1 r2 r3 c1 c2 c3 c4 t1 t2 t3 t4 t5
    ++ adacRecF g1 g2 g3 g4 g5 g6 gt1 gt2 gp1 gv1 gp2 gv2 gp3 gv3

set_option maxHeartbeats 1600000 in
/-- `ParseDownlink._adac`: 137 bytes of attitude-determination telemetry.
Each `let` line is one `_parsebinary` read of the source, in order. -/
def adac : M Record := do
  let bs ← pbBits 1
  let b1 ← pbInt "uint16"
  let b2 ← pbInt "uint16"
  let b3 ← pbInt "uint16"
  let b4 ← pbInt "uint16"
  let b5 ← pbInt "uint16"
  let b6 ← pbInt "uint16"
  let b7 ← pbInt "uint16"
  let cs ← pbBits 6
  let e1 ← pbInt "int16"
  let e2 ← pbInt "int16"
  let e3 ← pbInt "int16"
  let e4 ← pbInt "int16"
  let e5 ← pbInt "int16"
  let e6 ← pbInt "int16"
  let e7 ← pbInt "int16"
  let e8 ← pbInt "int16"
  let e9 ← pbInt "int16"
  let e10 ← pbInt "int16"
  let e11 ← pbInt "int16"
  let e12 ← pbInt "int16"
  let e13 ← pbInt "int16"
  let e14 ← pbInt "int16"
  let e15 ← pbInt "int16"
  let e16 ← pbInt "int16"
  let e17 ← pbInt "int16"
  let e18 ← pbInt "int16"
  let n1 ← pbInt "int16"
  let n2 ← pbInt "int16"
  let n3 ← pbInt "int16"
  let n4 ← pbInt "int16"
  let n5 ← pbInt "int16"
  let n6 ← pbInt "int16"
  let n7 ← pbInt "int16"
  let n8 ← pbInt "int16"
  let n9 ← pbInt "int16"
  let n10 ← pbInt "int16"
  let s1 ← pbInt "uint8"
  let s2 ← pbInt "uint8"
  let s3 ← pbInt "uint8"
  let s4 ← pbInt "uint8"
  let s5 ← pbInt "uint8"
  let s6 ← pbInt "uint8"
  let r1 ← pbInt "int16"
  let r2 ← pbInt "int16"
  let r3 ← pbInt "int16"
  let c1 ← pbInt "uint16"
  let c2 ← pbInt "uint16"
  let c3 ← pbInt "uint16"
  let c4 ← pbInt "uint16"
  let t1 ← pbInt "int16"
  let t2 ← pbInt "int16"
  let t3 ← pbInt "int16"
  let t4 ← pbInt "int16"
  let t5 ← pbInt "int16"
  let g1 ← pbInt "uint8"
  let g2 ← pbInt "uint8"
  let g3 ← pbInt "uint8"
  let g4 ← pbInt "uint8"
  let g5 ← pbInt "uint8"
  let g6 ← pbInt "uint8"
  let gt1 ← pbInt "uint32"
  let gt2 ← pbInt "uint16"
  let gp1 ← pbInt "int32"
  let gv1 ← pbInt "int16"
  let gp2 ← pbInt "int32"
  let gv2 ← pbInt "int16"
  let gp3 ← pbInt "int32"
  let gv3 ← pbInt "int16"
  pure (adacRec bs b1 b2 b3 b4 b5 b6 b7 cs
    e1 e2 e3 e4 e5 e6 e7 e8 e9 e10 e11 e12 e13 e14 e15 e16 e17 e18
    n1 n2 n3 n4 n5 n6 n7 n8 n9 n10 s1 s2 s3 s4 s5 s6 r1 r2 r3
    c1 c2 c3 c4 t1 t2 t3 t4 t5 g1 g2 g3 g4 g5 g6 gt1 gt2
    gp1 gv1 gp2 gv2 gp3 gv3)

def epsRecA (u1 u2 u3 u4 u5 u6 u7 u8 u9 u10 u11 u12 u13 u14 u15 u16 u17 u18 u19 u20 : ℤ) :
    Record :=
  [("eps_output_current_bcr", .num ((u1 : ℚ) * 14.662757)),
   ("eps_output_voltage_bcr", .num ((u2 : ℚ) * 0.008993157)),
   ("eps_output_current_12v", .num ((u3 : ℚ) * 0.00207)),
   ("eps_output_voltage_12v", .num ((u4 : ℚ) * 0.01349)),
   ("eps_output_current_bat", .num ((u5 : ℚ) * 0.005237)),
   ("eps_output_voltage_bat", .num ((u6 : ℚ) * 0.008978)),
   ("eps_output_current_5v", .num ((u7 : ℚ) * 0.005237)),
   ("eps_output_voltage_5v", .num ((u8 : ℚ) * 0.005865)),
   ("eps_output_current_3v3", .num ((u9 : ℚ) * 0.005237)),
   ("eps_output_voltage_3v3", .num ((u10 : ℚ) * 0.004311)),
   ("eps_temperature_motherboard", .num ((u11 : ℚ) * 0.372434 - 273.15)),
   ("eps_temperature_daughterboard", .num ((u12 : ℚ) * 0.372434 - 273.15)),
   ("eps_currentdraw_3v3", .num ((u13 : ℚ) * 0.001327547)),
   ("eps_currentdraw_5v", .num ((u14 : ℚ) * 0.001327547)),
   ("eps_switchbus_voltage_motor", .num ((u15 : ℚ) * 0.01349)),
   ("eps_switchbus_current_motor", .num ((u16 : ℚ) * 0.001328)),
   ("eps_switchbus_voltage_hstx", .num ((u17 : ℚ) * 0.008993)),
   ("eps_switchbus_current_hstx", .num ((u18 : ℚ) * 0.006239)),
   ("eps_switchbus_voltage_camera", .num ((u19 : ℚ) * 0.005865)),
   ("eps_switchbus_current_camera", .num ((u20 : ℚ) * 0.001328))]

def epsRecB (u21 u22 u23 u24 u25 u26 u27 u28 u29 u30 u31 u32 u33 u34 u35 u36 u37 u38 u39 u40 : ℤ) :
    Record :=
  [("eps_switchbus_voltage_adac5", .num ((u21 : ℚ) * 0.005865)),
   ("eps_switchbus_current_adac5", .num ((u22 : ℚ) * 0.001328)),
   ("eps_switchbus_voltage_vlf", .num ((u23 : ℚ) * 0.005865)),
   ("eps_switchbus_current_vlf", .num ((u24 : ℚ) * 0.001328)),
   ("eps_switchbus_voltage_ants", .num ((u25 : ℚ) * 0.004311)),
   ("eps_switchbus_current_ants", .num ((u26 : ℚ) * 0.001328)),
   ("eps_switchbus_voltage_adac3", .num ((u27 : ℚ) * 0.004311)),
   ("eps_switchbus_current_adac3", .num ((u28 : ℚ) * 0.001328)),
   ("eps_switchbus_voltage_gps", .num ((u29 : ℚ) * 0.004311)),
   ("eps_switchbus_current_gps", .num ((u30 : ℚ) * 0.001328)),
   ("eps_bcr1_temperature_a", .num ((u31 : ℚ) * 0.4963 - 273.15)),
   ("eps_bcr1_temperature_b", .num ((u32 : ℚ) * 0.4963 - 273.15)),
   ("eps_bcr1_voltage", .num ((u33 : ℚ) * 0.0322581)),
   ("eps_bcr1_current", .num ((u34 : ℚ) * 0.0009775)),
   ("eps_bcr2_temperature_a", .num ((u35 : ℚ) * 0.4963 - 273.15)),
   ("eps_bcr2_temperature_b", .num ((u36 : ℚ) * 0.4963 - 273.15)),
   ("eps_bcr2_voltage", .num ((u37 : ℚ) * 0.0322581)),
   ("eps_bcr2_current_a", .num ((u38 : ℚ) * 0.0009775)),
   ("eps_bcr2_current_b", .num ((u39 : ℚ) * 0.0009775)),
   ("eps_bcr3_temperature_a", .num ((u40 : ℚ) * 0.4963 - 273.15))]

def epsRecC (u41 u42 u43 u44 u45 u46 u47 u48 u49 u50 : ℤ) (pdm : List ℕ)
    (w1 w2 w3 w4 w5 w6 w7 : ℤ) : Record :=
  [("eps_bcr3_temperature_b", .num ((u41 : ℚ) * 0.4963 - 273.15)),
   ("eps_bcr3_voltage", .num ((u42 : ℚ) * 0.0099706)),
   ("eps_bcr3_current_a", .num ((u43 : ℚ) * 0.0009775)),
   ("eps_bcr3_current_b", .num ((u44 : ℚ) * 0.0009775)),
   ("eps_bcr4_voltage", .num ((u45 : ℚ) * 0.0322581)),
   ("eps_bcr4_current_a", .num ((u46 : ℚ) * 0.0009775)),
   ("eps_bcr4_current_b", .num ((u47 : ℚ) * 0.0009775)),
   ("eps_bcr6_voltage", .num ((u48 : ℚ) * 0.0322581)),
   ("eps_bcr6_current_a", .num ((u49 : ℚ) * 0.0009775)),
   ("eps_bcr6_current_b", .num ((u50 : ℚ) * 0.0009775)),
   ("eps_pdmstate_vlf_12v", .num (pdm.getD 1 0 : ℚ)),
   ("eps_pdmstate_stx_bat", .num (pdm.getD 3 0 : ℚ)),
   ("eps_pdmstate_camera", .num (pdm.getD 5 0 : ℚ)),
   ("eps_pdmstate_adac_5v", .num (pdm.getD 6 0 : ℚ)),
   ("eps_pdmstate_vlf_5v", .num (pdm.getD 7 0 : ℚ)),
   ("eps_pdmstate_ants", .num (pdm.getD 8 0 : ℚ)),
   ("eps_pdmstate_adac_3v3", .num (pdm.getD 9 0 : ℚ)),
   ("eps_pdmstate_gps_3v3", .num (pdm.getD 10 0 : ℚ)),
   ("eps_reset_brownout_motherboard", .num (w1 : ℚ)),
   ("eps_reset_brownout_daughterboard", .num (w2 : ℚ)),
   ("eps_reset_software_motherboard", .num (w3 : ℚ)),
   ("eps_reset_software_daughterboard", .num (w4 : ℚ)),
   ("eps_reset_manual_motherboard", .num (w5 : ℚ)),
   ("eps_reset_manual_daughterboard", .num (w6 : ℚ)),
   ("eps_reset_watchdog", .num (w7 : ℚ))]

/-- The ordered field mapping `_eps` builds (split into parts only to keep
list literals short). -/
def epsRec (u1 u2 u3 u4 u5 u6 u7 u8 u9 u10 u11 u12 u13 u14 u15 u16 u17 u18 u19 u20
    u21 u22 u23 u24 u25 u26 u27 u28 u29 u30 u31 u32 u33 u34 u35 u36 u37 u38 u39 u40
    u41 u42 u43 u44 u45 u46 u47 u48 u49 u50 : ℤ) (pdm : List ℕ)
    (w1 w2 w3 w4 w5 w6 w7 : ℤ) : Record :=
  epsRecA u1 u2 u3 u4 u5 u6 u7 u8 u9 u10 u11 u12 u13 u14 u15 u16 u17 u18 u19 u20
    ++ epsRecB u21 u22 u23 u24 u25 u26 u27 u28 u29 u30 u31 u32 u33 u34 u35 u36 u37 u38 u39 u40
    ++ epsRecC u41 u42 u43 u44 u45 u46 u47 u48 u49 u50 pdm w1 w2 w3 w4 w5 w6 w7

set_option maxHeartbeats 1600000 in
/-- `ParseDownlink._eps`: 116 bytes of power-system telemetry. -/
def eps : M Record := do
  let u1 ← pbInt "uint16"
  let u2 ← pbInt "uint16"
  let u3 ← pbInt "uint16"
  let u4 ← pbInt "uint16"
  let u5 ← pbInt "uint16"
  let u6 ← pbInt "uint16"
  let u7 ← pbInt "uint16"
  let u8 ← pbInt "uint16"
  let u9 ← pbInt "uint16"
  let u10 ← pbInt "uint16"
  let u11 ← pbInt "uint16"
  let u12 ← pbInt "uint16"
  let u13 ← pbInt "uint16"
  let u14 ← pbInt "uint16"
  let u15 ← pbInt "uint16"
  let u16 ← pbInt "uint16"
  let u17 ← pbInt "uint16"
  let u18 ← pbInt "uint16"
  let u19 ← pbInt "uint16"
  let u20 ← pbInt "uint16"
  let u21 ← pbInt "uint16"
  let u22 ← pbInt "uint16"
  let u23 ← pbInt "uint16"
  let u24 ← pbInt "uint16"
  let u25 ← pbInt "uint16"
  let u26 ← pbInt "uint16"
  let u27 ← pbInt "uint16"
  let u28 ← pbInt "uint16"
  let u29 ← pbInt "uint16"
  let u30 ← pbInt "uint16"
  let u31 ← pbInt "uint16"
  let u32 ← pbInt "uint16"
  let u33 ← pbInt "uint16"
  let u34 ← pbInt "uint16"
  let u35 ← pbInt "uint16"
  let u36 ← pbInt "uint16"
  let u37 ← pbInt "uint16"
  let u38 ← pbInt "uint16"
  let u39 ← pbInt "uint16"
  let u40 ← pbInt "uint16"
  let u41 ← pbInt "uint16"
  let u42 ← pbInt "uint16"
  let u43 ← pbInt "uint16"
  let u44 ← pbInt "uint16"
  let u45 ← pbInt "uint16"
  let u46 ← pbInt "uint16"
  let u47 ← pbInt "uint16"
  let u48 ← pbInt "uint16"
  let u49 ← pbInt "uint16"
  let u50 ← pbInt "uint16"
  let pdm ← pbBits 2
  let w1 ← pbInt "uint16"
  let w2 ← pbInt "uint16"
  let w3 ← pbInt "uint16"
  let w4 ← pbInt "uint16"
  let w5 ← pbInt "uint16"
  let w6 ← pbInt "uint16"
  let w7 ← pbInt "uint16"
  pure (epsRec u1 u2 u3 u4 u5 u6 u7 u8 u9 u10 u11 u12 u13 u14 u15 u16 u17 u18 u19 u20
    u21 u22 u23 u24 u25 u26 u27 u28 u29 u30 u31 u32 u33 u34 u35 u36 u37 u38 u39 u40
    u41 u42 u43 u44 u45 u46 u47 u48 u49 u50 pdm w1 w2 w3 w4 w5 w6 w7)

/-- The ordered field mapping `_battery` builds. -/
def batteryRec (u1 u2 u3 u4 u5 u6 u7 : ℤ) (hs : List ℕ) : Record :=
  [("battery_voltage", .num ((u1 : ℚ) * 0.008993)),
   ("battery_current", .num ((u2 : ℚ) * 14.662757 / 1000)),
   ("battery_temperature_motherboard", .num ((u3 : ℚ) * 0.372434 - 273.15)),
   ("battery_temperature_daughterboard_1", .num ((u4 : ℚ) * 0.3976 - 238.57)),
   ("battery_temperature_daughterboard_2", .num ((u5 : ℚ) * 0.3976 - 238.57)),
   ("battery_temperature_daughterboard_3", .num ((u6 : ℚ) * 0.3976 - 238.57)),
   ("battery_temperature_daughterboard_4", .num ((u7 : ℚ) * 0.3976 - 238.57)),
   ("battery_heaterstatus_1", .num (hs.getD 0 0 : ℚ)),
   ("battery_heaterstatus_2", .num (hs.getD 1 0 : ℚ)),
   ("battery_heaterstatus_3", .num (hs.getD 2 0 : ℚ)),
   ("battery_heaterstatus_4", .num (hs.getD 3 0 : ℚ))]

/-- `ParseDownlink._battery`: 15 bytes of battery telemetry. -/
def battery : M Record := do
  let u1 ← pbInt "uint16"
  let u2 ← pbInt "uint16"
  let u3 ← pbInt "uint16"
  let u4 ← pbInt "uint16"
  let u5 ← pbInt "uint16"
  let u6 ← pbInt "uint16"
  let u7 ← pbInt "uint16"
  let hs ← pbBits 1
  pure (batteryRec u1 u2 u3 u4 u5 u6 u7 hs)

/-- The ordered field mapping `_vutrx` builds.  `flrx`/`fltx` and
`tone`/`cnt` are the `getkbits8` splits of the frequent-lock and DTMF
registers. -/
def vutrxRec (a1 a2 a3 : ℤ) (flrx fltx : ℕ) (a4 a5 a6 a7 a8 a9 : ℤ)
    (tone cnt : ℕ) (a10 a11 a12 a13 a14 a15 : ℤ) : Record :=
  [("vutrx_rx_failedpackage", .num (a1 : ℚ)),
   ("vutrx_rx_crcfailedpackage", .num (a2 : ℚ)),
   ("vutrx_rx_packagecounter", .num (a3 : ℚ)),
   ("vutrx_rx_frequentlock", .num (flrx : ℚ)),
   ("vutrx_tx_frequentlock", .num (fltx : ℚ)),
   ("vutrx_rssi", .num ((a4 : ℚ) * 3 / 4096)),
   ("vutrx_smps_temperature", .num (a5 : ℚ)),
   ("vutrx_poweramplifier_temperature", .num (a6 : ℚ)),
   ("vutrx_poweramplifier_power", .num (a7 : ℚ)),
   ("vutrx_frequencyoffset_tx", .num (a8 : ℚ)),
   ("vutrx_frequencyoffset_rx", .num (a9 : ℚ)),
   ("vutrx_dtmf_tone", .num (tone : ℚ)),
   ("vutrx_dtmf_counter", .num (cnt : ℚ)),
   ("vutrx_current_3v3", .num ((a10 : ℚ) * 3e-6)),
   ("vutrx_current_5v", .num ((a11 : ℚ) * 62e-6)),
   ("vutrx_voltage_3v3", .num ((a12 : ℚ) * 4e-3)),
   ("vutrx_voltage_5v", .num ((a13 : ℚ) * 4e-3)),
   ("vutrx_poweramplifier_forwardpower", .num ((a14 : ℚ) * 3 / 4096)),
   ("vutrx_poweramplifier_reversepower", .num ((a15 : ℚ) * 3 / 4096))]

/-- `ParseDownlink._vutrx`: 28 bytes of VHF/UHF transceiver telemetry. -/
def vutrx : M Record := do
  let a1 ← pbInt "uint8"
  let a2 ← pbInt "uint16"
  let a3 ← pbInt "uint16"
  let frequentlock ← pbInt "uint8"
  let flrx ← liftE (getkbits8E frequentlock 1 0)
  let fltx ← liftE (getkbits8E frequentlock 1 1)
  let a4 ← pbInt "uint16"
  let a5 ← pbInt "int8"
  let a6 ← pbInt "int8"
  let a7 ← pbInt "uint8"
  let a8 ← pbInt "uint16"
  let a9 ← pbInt "uint16"
  let dtmf ← pbInt "uint8"
  let tone ← liftE (getkbits8E dtmf 4 0)
  let cnt ← liftE (getkbits8E dtmf 4 4)
  let a10 ← pbInt "int16"
  let a11 ← pbInt "int16"
  let a12 ← pbInt "int16"
  let a13 ← pbInt "int16"
  let a14 ← pbInt "uint16"
  let a15 ← pbInt "uint16"
  pure (vutrxRec a1 a2 a3 flrx fltx a4 a5 a6 a7 a8 a9 tone cnt a10 a11 a12 a13 a14 a15)

/-- The ordered field mapping `_stx` builds.  `k1`/`k2` are the
`getkbits8(…, 12, 4)` values of the two temperature registers. -/
def stxRec (b1 b2 b3 b4 : ℤ) (k1 k2 : ℕ) (b5 b6 b7 b8 : ℤ) (pa : List ℕ)
    (b9 : ℤ) : Record :=
  [("stx_voltage_battery", .num ((b1 : ℚ) * 4e-3)),
   ("stx_current_battery", .num ((b2 : ℚ) * 40e-6)),
   ("stx_voltage_poweramplifier", .num ((b3 : ℚ) * 4e-3)),
   ("stx_current_poweramplifier", .num ((b4 : ℚ) * 40e-6)),
   ("stx_temperature_top", .num ((k1 : ℚ) * 0.0625)),
   ("stx_temperature_bottom", .num ((k2 : ℚ) * 0.0625)),
   ("stx_temperature_poweramplifier", .num (((b5 : ℚ) * 3 / 4096 - 0.5) * 100)),
   ("stx_synth_offset", .num ((b6 : ℚ) * 0.5 + 2400)),
   ("stx_buffer_overrun", .num (b7 : ℚ)),
   ("stx_buffer_underrun", .num (b8 : ℚ)),
   ("stx_poweramplifier_status_frequencylock", .num (pa.getD 0 0 : ℚ)),
   ("stx_poweramplifier_status_powergood", .num (pa.getD 1 0 : ℚ)),
   ("stx_rf_poweroutput", .num ((b9 : ℚ) * 3 * 28 / 4096 / 18))]

/-- `ParseDownlink._stx`: S-band transmitter telemetry.  Note: it consumes
21 bytes although the 185-byte frame layout hands it a 22-byte slice. -/
def stx : M Record := do
  let b1 ← pbInt "uint16"
  let b2 ← pbInt "uint16"
  let b3 ← pbInt "uint16"
  let b4 ← pbInt "uint16"
  let t1 ← pbInt "int16"
  let k1 ← liftE (getkbits8E t1 12 4)
  let t2 ← pbInt "int16"
  let k2 ← liftE (getkbits8E t2 12 4)
  let b5 ← pbInt "uint8"
  let b6 ← pbInt "uint8"
  let b7 ← pbInt "uint16"
  let b8 ← pbInt "uint16"
  let pa ← pbBits 1
  let b9 ← pbInt "uint16"
  pure (stxRec b1 b2 b3 b4 k1 k2 b5 b6 b7 b8 pa b9)

/-- The ordered field mapping `_ants` builds (bit position 12 of the status
word is not exposed, exactly as in the source). -/
def antsRec (u1 : ℤ) (st : List ℕ) : Record :=
  [("ants_temperature", .num ((u1 : ℚ) * 3.3 / 1023)),
   ("ants_status_armed", .num (st.getD 0 0 : ℚ)),
   ("ants_status_deploymentactive_4", .num (st.getD 1 0 : ℚ)),
   ("ants_status_stopcriteria_4", .num (st.getD 2 0 : ℚ)),
   ("ants_status_deploymentflag_4", .num (st.getD 3 0 : ℚ)),
   ("ants_status_independentburn", .num (st.getD 4 0 : ℚ)),
   ("ants_status_deploymentactive_3", .num (st.getD 5 0 : ℚ)),
   ("ants_status_stopcriteria_3", .num (st.getD 6 0 : ℚ)),
   ("ants_status_deploymentflag_3", .num (st.getD 7 0 : ℚ)),
   ("ants_status_ignoreswitches", .num (st.getD 8 0 : ℚ)),
   ("ants_status_deploymentactive_2", .num (st.getD 9 0 : ℚ)),
   ("ants_status_stopcriteria_2", .num (st.getD 10 0 : ℚ)),
   ("ants_status_deploymentflag_2", .num (st.getD 11 0 : ℚ)),
   ("ants_status_deploymentactive_1", .num (st.getD 13 0 : ℚ)),
   ("ants_status_stopcriteria_1", .num (st.getD 14 0 : ℚ)),
   ("ants_status_deploymentflag_1", .num (st.getD 15 0 : ℚ))]

/-- `ParseDownlink._ants`: 4 bytes of antenna-system telemetry. -/
def ants : M Record := do
  let u1 ← pbInt "uint16"
  let st ← pbBits 2
  pure (antsRec u1 st)

/-- The 44 hex pairs whose join is the acknowledgement marker in `_parse`. -/
def ackPairs : List String :=
  ["47", "61", "74", "6f", "72", "20", "4e", "61",
   "74", "69", "6f", "6e", "20", "49", "73", "20",
   "45", "76", "65", "72", "79", "77", "68", "65",
   "72", "65", "21", "20", "46", "72", "6f", "6d",
   "20", "53", "77", "61", "6d", "70", "53", "61",
   "74", "20", "49", "49"]

/-- `''.join([...])` of the pairs above: the acknowledgement marker. -/
def ackMarker : List Char := (ackPairs.map String.toList).flatten

/-- The acknowledgement record `_parse` builds; `c1`/`c2` are the last two
tokens (`hexstr_cleaned[-2]` and `hexstr_cleaned[-1]`). -/
def ackRec (ts : String) (c1 c2 : Tok) : Record :=
  [("timestamp", .str ts),
   ("msgtype", .num 0),
   ("messagenum", .num 1),
   ("messagetotal", .num 1),
   ("message", .str "Gator Nation Is Everywhere! From SwampSat II"),
   ("lastcommand", .str (String.mk c1)),
   ("awknowledgement", .str (String.mk c2))]

/-- The timestamp/msgtype/messagenum/messagetotal header of every telemetry
record. -/
def metaRec (ts : String) (mt mn mtot : ℕ) : Record :=
  [("timestamp", .str ts),
   ("msgtype", .num (mt : ℚ)),
   ("messagenum", .num (mn : ℚ)),
   ("messagetotal", .num (mtot : ℚ))]

/-- Python's substring test `pat in s`, as a boolean on char lists. -/
def infixB (pat : List Char) : List Char → Bool
  | [] => pat.isEmpty
  | c :: t => pat.isPrefixOf (c :: t) || infixB pat t

/-- Running a subsystem parser on its slice: the leftover tokens are
discarded, exactly as each `_xxx` method pops from its own local list. -/
def runSub (m : M Record) (l : List Tok) : Except PyErr Record :=
  Except.map Prod.fst (m l)

/-- The branch chain of `_parse` after input cleaning, over the cleaned
token list `cl`.  The wall-clock timestamp is passed in as `ts`.  The empty
list and the unrecognized-length branch both leave `compileddata` as the
empty ordered dict. -/
def parseCore (ts : String) (cl : List Tok) : Except PyErr Record :=
  if cl.length = 0 then .ok []
  else if infixB ackMarker cl.flatten then
    if cl.length < 2 then .error .indexError
    else .ok (ackRec ts (cl.getD (cl.length - 2) []) (cl.getD (cl.length - 1) []))
  else if cl.length = 112 then do
    let c ← runSub cdh (cl.take 112)
    pure (metaRec ts 1 1 2 ++ c)
  else if cl.length = 249 then do
    let c ← runSub cdh (cl.take 112)
    let a ← runSub adac (cl.drop 112)
    pure (metaRec ts 2 1 2 ++ c ++ a)
  else if cl.length = 163 then do
    let e ← runSub eps (cl.take 116)
    let b ← runSub battery ((cl.drop 116).take 15)
    let v ← runSub vutrx ((cl.drop 131).take 28)
    let an ← runSub ants (cl.drop 159)
    pure (metaRec ts 3 2 2 ++ e ++ b ++ v ++ an)
  else if cl.length = 185 then do
    let e ← runSub eps (cl.take 116)
    let b ← runSub battery ((cl.drop 116).take 15)
    let v ← runSub vutrx ((cl.drop 131).take 28)
    let an ← runSub ants ((cl.drop 159).take 4)
    let s ← runSub stx (cl.drop 163)
    pure (metaRec ts 4 2 2 ++ e ++ b ++ v ++ an ++ s)
  else .ok []

/-- `ParseDownlink._parse`: clean the input, then run the branch chain. -/
def parse (ts : String) (hexstr dlim : List Char) : Except PyErr Record :=
  parseCore ts (cleaninput hexstr dlim).1
